import Mathlib

/-!
# Verification of the Cyrus sieve script engine (`src/sieve/script.c`)

This file gives a shallow embedding, in Lean 4, of the parts of
`src/sieve/script.c` that the verified claims are about:

* the bytecode cache (`sieve_script_load`),
* the action dispatcher (`do_action_list`),
* the error handler (`do_sieve_error`),
* the top-level driver (`sieve_execute_bytecode`), and
* the notification template builder (`build_notify_message` / `add_header`).

Host callbacks (reject, fileinto, keep, notify, execute_err, vacation
autorespond / send_response, duplicate track, ...) live outside this
repository; they are modelled as an oracle that yields a status code (and
optionally an error message) for each successive callback invocation.  Every
invocation is also recorded as an `Event` in a trace so that ordering and
invocation-count properties can be stated.

Filesystem calls (`stat`/`open`/`fstat`) used by `sieve_script_load` are
modelled as an oracle `FS`.

All functions are plain computable definitions so that concrete executions
evaluate by `decide`/`rfl`.
-/

set_option autoImplicit false

namespace SieveSpec

/-! ### Status codes

Modelled from the spec: the numeric values come from `sieve_interface.h`,
which is not under `src/`; the spec (§6 Status codes) lists them in the
order `Ok=0, Done, ScriptReloaded, Fail, NotFinalized, ParseError,
RunError, InternalError, NoMem`.  The code only tests these for
(in)equality and merges them with bitwise or, so only distinctness and
nonnegativity matter. -/

abbrev SIEVE_OK : Int := 0
abbrev SIEVE_DONE : Int := 1
abbrev SIEVE_SCRIPT_RELOADED : Int := 2
abbrev SIEVE_FAIL : Int := 3
abbrev SIEVE_NOT_FINALIZED : Int := 4
abbrev SIEVE_PARSE_ERROR : Int := 5
abbrev SIEVE_RUN_ERROR : Int := 6
abbrev SIEVE_INTERNAL_ERROR : Int := 7
abbrev SIEVE_NOMEM : Int := 8

/-! ### Bytecode cache (`sieve_script_load`, script.c lines 508-584)

`sieve_execute_t` holds a linked list of memory-mapped bytecode blobs
(`bc_list`) plus the cursor `bc_cur`.  The mapped bytes themselves
(`bc->data`/`bc->len`, filled by `map_refresh`) are payload the claims never
inspect, so a blob is represented by its file descriptor and inode. -/

structure sieve_bytecode_t where
  fd : Nat
  inode : Nat
  deriving DecidableEq

structure sieve_execute_t where
  bc_list : List sieve_bytecode_t
  bc_cur : Option sieve_bytecode_t
  deriving DecidableEq

/-- Result of `stat`/`fstat`: only `st_ino` is consulted by the code
(`st_size` is passed to `map_refresh`, payload only). -/
structure Stat where
  st_ino : Nat
  deriving DecidableEq

/-- Filesystem oracle for `sieve_script_load`: `stat` by path, `open` by
path (returning a file descriptor), `fstat` by descriptor.  `none` models
the syscall failing (returning -1). -/
structure FS where
  stat : String → Option Stat
  openf : Nat → String → Option Nat
  fstat : Nat → Option Stat

/-- Model of `sieve_script_load(fname, ret)`, script.c lines 508-584.

`fname = none` models a NULL path, `ret = none` a NULL out-pointer,
`ret = some none` a pointer to a NULL handle (fresh load) and
`ret = some (some ex)` a pointer to an existing handle (INCLUDE reload).
The `attempt` argument of `FS.openf` is unused here (passed 0); it keeps the
oracle general.  The result is the returned status together with the final
state of `*ret`. -/
def sieve_script_load (fs : FS) (fname : Option String)
    (ret : Option (Option sieve_execute_t)) :
    Int × Option (Option sieve_execute_t) :=
  match fname, ret with
  | none, _ => (SIEVE_FAIL, ret)
  | _, none => (SIEVE_FAIL, ret)
  | some fname, some retv =>
    match fs.stat fname with
    | none => (SIEVE_FAIL, some retv)          -- stat failed: log and bail
    | some sbuf =>
      -- new handle via xzmalloc when *ret is NULL, else the existing one
      let ex : sieve_execute_t := retv.getD { bc_list := [], bc_cur := none }
      -- "see if we already have this script loaded": scan bc_list by inode
      match ex.bc_list.find? (fun bc => sbuf.st_ino == bc.inode) with
      | some bc =>
        -- script was loaded in the past
        (SIEVE_SCRIPT_RELOADED, some (some { ex with bc_cur := some bc }))
      | none =>
        -- new script -- load it
        match fs.openf 0 fname with
        | none => (SIEVE_FAIL, some retv)      -- open failed; ex freed if fresh
        | some fd =>
          match fs.fstat fd with
          | none => (SIEVE_FAIL, some retv)    -- fstat failed; fd closed
          | some sbuf2 =>
            let bc : sieve_bytecode_t := { fd := fd, inode := sbuf2.st_ino }
            -- map_refresh fills bc->data/bc->len (payload); prepend to list
            let ex := { ex with bc_list := bc :: ex.bc_list, bc_cur := some bc }
            (SIEVE_OK, some (some ex))

/-! ### Action dispatcher data model (script.c lines 460-501, 612-1011) -/

/-- The `action_t` enumeration (sieve's action kinds). `lastaction` starts
out as `-1` in the C code; that sentinel is modelled as `Option action_t`
with `none` for `-1`. -/
inductive action_t where
  | ACTION_NULL | ACTION_NONE
  | ACTION_REJECT | ACTION_EREJECT
  | ACTION_FILEINTO | ACTION_SNOOZE
  | ACTION_KEEP | ACTION_REDIRECT | ACTION_DISCARD | ACTION_VACATION
  | ACTION_SETFLAG | ACTION_ADDFLAG | ACTION_REMOVEFLAG
  | ACTION_MARK | ACTION_UNMARK
  | ACTION_NOTIFY | ACTION_DENOTIFY
  deriving DecidableEq

/-- One entry of `action_list_t`.  Besides the kind and the `cancel_keep`
flag, the dispatcher only reads the payload strings it prints or stores in
`interp->lastitem`: `u.rej.msg`, `u.fil.mailbox`, `u.red.addr`.  The other
payload members are passed opaquely to the callbacks. -/
structure Action where
  a : action_t
  cancel_keep : Bool
  msg : String := ""
  mailbox : String := ""
  addr : String := ""
  deriving DecidableEq

/-- One entry of `notify_list_t`.  Pointer-valued fields are `Option` so the
NULL checks of `send_notify_callback` can be modelled; `nfrom` models the
`from` member (a Lean keyword), payload only. -/
structure NotifyEntry where
  isactive : Bool
  method : Option String
  options : Option (List String)
  priority : Option String
  message : Option String
  nfrom : Option String := none
  deriving DecidableEq

/-- The capability slots of `sieve_interp_t` that the dispatcher consults,
as registered/unregistered flags.  (`vacation` stands for the registered
autorespond/send_response pair, `duplicate` for the check/track pair.)
The accessor callbacks (`getheadersection`, `getenvelope`, `getfname`,
`getbody`) only fill payload the dispatcher passes through, and so are not
modelled here. -/
structure Interp where
  reject : Bool
  fileinto : Bool
  snooze : Bool
  keep : Bool
  redirect : Bool
  discard : Bool
  vacation : Bool
  notify : Bool
  execute_err : Bool
  duplicate : Bool
  edited_headers : Bool
  deriving DecidableEq

/-- A trace event: one invocation of a host callback.  `evKeep` is an
explicit `keep` action's call of `interp->keep`; `evImplicitKeep` is the
implicit-keep call made by `do_sieve_error` (same callback slot, different
`sieve_keep_context_t`). -/
inductive Event where
  | evReject (msg : String)
  | evFileinto (mailbox : String)
  | evSnooze
  | evKeep
  | evRedirect (addr : String)
  | evDiscard
  | evAutorespond
  | evSendResponse
  | evNotify (method : String)
  | evExecuteErr (buf : String)
  | evImplicitKeep
  | evTrack (id : String) (seconds : Int)
  deriving DecidableEq

/-- The host-callback oracle: the k-th callback invocation of an execution
(0-indexed, counted across all slots) returns status `result k`, and
— for callbacks taking a `const char **errmsg` out-parameter — optionally
overwrites the dispatcher's `errmsg` with `errOut k`. -/
structure Host where
  result : Nat → Int
  errOut : Nat → Option String

/-- The mutable dispatcher state threaded through `do_action_list` /
`do_sieve_error`: the event trace (grows at the end; its length is the
invocation counter), the 4 KiB `actions_string` buffer, and
`interp->lastitem`. -/
structure DispatchState where
  trace : List Event
  actions_string : String
  lastitem : Option String
  deriving DecidableEq

def initialDispatchState : DispatchState :=
  { trace := [], actions_string := "", lastitem := none }

/-- Invoke a callback that does not take an errmsg out-parameter. -/
def invoke (host : Host) (st : DispatchState) (e : Event) : Int × DispatchState :=
  (host.result st.trace.length, { st with trace := st.trace ++ [e] })

/-- Invoke a callback that takes `&errmsg`: returns (status, state, errmsg). -/
def invokeErr (host : Host) (st : DispatchState) (errmsg : Option String)
    (e : Event) : Int × DispatchState × Option String :=
  (host.result st.trace.length, { st with trace := st.trace ++ [e] },
   (host.errOut st.trace.length).elim errmsg some)

/-! ### String helpers (script.c lines 460-501, 612, 78) -/

def ACTIONS_STRING_LEN : Nat := 4096
def ERR_BUF_SIZE : Nat := 1024

/-- Model of `snprintf(as+strlen(as), ACTIONS_STRING_LEN-strlen(as), ...)`: append
with silent truncation to the remaining capacity of the 4 KiB buffer
(snprintf writes at most size-1 bytes plus the terminator; characters
stand for bytes).  The truncation is taken on the character list, which
stops at the end of the text. -/
def appendTrunc (s t : String) : String :=
  s ++ String.mk (t.data.take (ACTIONS_STRING_LEN - 1 - s.length))

def appendStr (st : DispatchState) (t : String) : DispatchState :=
  { st with actions_string := appendTrunc st.actions_string t }

/-- Model of `action_to_string`, script.c lines 460-485. -/
def action_to_string : action_t → String
  | .ACTION_NULL => "NULL"
  | .ACTION_NONE => "None"
  | .ACTION_REJECT => "Reject"
  | .ACTION_EREJECT => "eReject"
  | .ACTION_FILEINTO => "Fileinto"
  | .ACTION_SNOOZE => "Snooze"
  | .ACTION_KEEP => "Keep"
  | .ACTION_REDIRECT => "Redirect"
  | .ACTION_DISCARD => "Discard"
  | .ACTION_VACATION => "Vacation"
  | .ACTION_SETFLAG => "Setflag"
  | .ACTION_ADDFLAG => "Addflag"
  | .ACTION_REMOVEFLAG => "Removeflag"
  | .ACTION_MARK => "Mark"
  | .ACTION_UNMARK => "Unmark"
  | .ACTION_NOTIFY => "Notify"
  | .ACTION_DENOTIFY => "Denotify"

/-- Model of `sieve_errstr`, script.c lines 487-501. -/
def sieve_errstr (code : Int) : String :=
  if code == SIEVE_FAIL then "Generic Error"
  else if code == SIEVE_NOT_FINALIZED then "Sieve not finalized"
  else if code == SIEVE_PARSE_ERROR then "Parse error"
  else if code == SIEVE_RUN_ERROR then "Run error"
  else if code == SIEVE_INTERNAL_ERROR then "Internal Error"
  else if code == SIEVE_NOMEM then "No memory"
  else "Unknown error"

/-! ### The error handler `do_sieve_error` (script.c lines 614-727) -/

/-- The NULL checks at the top of `send_notify_callback`
(script.c lines 417-421). -/
def wfNotify (n : NotifyEntry) : Bool :=
  n.method.isSome && n.options.isSome && n.priority.isSome && n.message.isSome

/-- Model of `send_notify_callback`, script.c lines 407-458.  A malformed entry
(NULL method/options/priority/message) yields `SIEVE_RUN_ERROR` without
invoking the host.  Otherwise `interp->notify` is invoked; the message it
receives (built by `build_notify_message` plus `"\n\n"` and the actions
trace) and the `$env-from$` option substitution are payload the dispatcher
itself never reads back, so the event records the method only. -/
def send_notify_callback (host : Host) (st : DispatchState) (errmsg : Option String)
    (n : NotifyEntry) : Int × DispatchState × Option String :=
  if !wfNotify n then (SIEVE_RUN_ERROR, st, errmsg)
  else invokeErr host st errmsg (.evNotify (n.method.getD ""))

/-- Result bundle of the notify-processing loop inside `do_sieve_error`. -/
structure NLRes where
  ret : Int
  notify_ret : Int
  lastaction : Option action_t
  st : DispatchState
  errmsg : Option String

/-- The `while (n != NULL)` loop over the notify list
(script.c lines 646-661): for each active entry set
`lastaction = ACTION_NOTIFY`, call `send_notify_callback`, and fold its
status into `ret` with bitwise or; `notify_ret` keeps the status of the
most recent active entry. -/
def notifyLoop (host : Host) :
    List NotifyEntry → Int → Int → Option action_t → DispatchState →
    Option String → NLRes
  | [], ret, notify_ret, la, st, errmsg =>
    { ret := ret, notify_ret := notify_ret, lastaction := la, st := st, errmsg := errmsg }
  | n :: rest, ret, notify_ret, la, st, errmsg =>
    if n.isactive then
      let r := send_notify_callback host st errmsg n
      notifyLoop host rest (Int.lor ret r.1) r.1 (some .ACTION_NOTIFY) r.2.1 r.2.2
    else
      notifyLoop host rest ret notify_ret la st errmsg

/-- The failure line prepended to `actions_string` when `ret != SIEVE_OK`
(script.c lines 628-640). -/
def errorLineStep (ret : Int) (st : DispatchState) (lastaction : Option action_t)
    (errmsg : Option String) : DispatchState :=
  if ret == SIEVE_OK then st
  else
    match lastaction with
    | none =>
      appendStr st ("script execution failed: " ++ errmsg.getD (sieve_errstr ret) ++ "\n")
    | some la =>
      appendStr st (action_to_string la ++ " action failed: " ++
        errmsg.getD (sieve_errstr ret) ++ "\n")

/-- The message handed to `interp->execute_err` (script.c lines 676-691),
truncated by `snprintf(buf, ERR_BUF_SIZE, ...)`. -/
def execute_err_buf (ret : Int) (lastitem : Option String)
    (lastaction : Option action_t) (errmsg : Option String) : String :=
  (match lastaction with
   | none => errmsg.getD (sieve_errstr ret)
   | some la =>
     match lastitem with
     | some item =>
       action_to_string la ++ " (" ++ item ++ "): " ++ errmsg.getD (sieve_errstr ret)
     | none =>
       action_to_string la ++ ": " ++
         errmsg.getD (sieve_errstr ret) : String).data.take (ERR_BUF_SIZE - 1)
    |> String.mk

/-- The `execute_err` block of `do_sieve_error` (script.c lines 675-695):
when `ret != SIEVE_OK` and the callback is registered, report the error and
fold the callback's status into `ret`.  (`execute_err` takes no errmsg
out-parameter.) -/
def execErrStep (interp : Interp) (host : Host) (ret : Int) (st : DispatchState)
    (lastaction : Option action_t) (errmsg : Option String) : Int × DispatchState :=
  if !(ret == SIEVE_OK) && interp.execute_err then
    let r := invoke host st (.evExecuteErr (execute_err_buf ret st.lastitem lastaction errmsg))
    (Int.lor ret r.1, r.2)
  else (ret, st)

/-- Model of `do_sieve_error`, script.c lines 614-727.

The function is recursive in C: it re-enters itself after a notification
failure (with the notify list freed and NULLed) and after an implicit-keep
failure (with `implicit_keep = 0`).  The recursion is modelled with a fuel
parameter counting activation frames; `none` means the fuel ran out (or
`interp->keep` was NULL, in which case the C code would dereference a NULL
pointer).  Claim C5 proves that 3 frames always suffice.

`notify_list = none` models a NULL `notify_list_t *`.  `free_action_list`
and `free_notify_list` have no observable effect in this model. -/
def do_sieve_error (interp : Interp) (host : Host) :
    Nat → Int → DispatchState → Option (List NotifyEntry) → Option action_t →
    Bool → Option String → Option (Int × DispatchState)
  | 0, _, _, _, _, _, _ => none
  | fuel+1, ret, st, notify_list, lastaction, implicit_keep, errmsg =>
    let st := errorLineStep ret st lastaction errmsg
    -- "Process notify actions": only when interp->notify && notify_list
    let nblock := interp.notify && notify_list.isSome
    let nres :=
      if nblock then notifyLoop host (notify_list.getD []) ret SIEVE_OK lastaction st errmsg
      else { ret := ret, notify_ret := SIEVE_OK, lastaction := lastaction,
             st := st, errmsg := errmsg : NLRes }
    -- free_notify_list(notify_list); notify_list = NULL
    let notify_list := if nblock then none else notify_list
    if nblock && !(nres.notify_ret == SIEVE_OK) then
      -- recursive re-entry after a notification failure
      do_sieve_error interp host fuel nres.ret nres.st none nres.lastaction
        implicit_keep nres.errmsg
    else
      let er := execErrStep interp host nres.ret nres.st nres.lastaction nres.errmsg
      if implicit_keep then
        if !interp.keep then none   -- C would call through a NULL pointer here
        else
          -- lastaction = ACTION_KEEP; keep_ret = interp->keep(...)
          let r := invokeErr host er.2 nres.errmsg .evImplicitKeep
          let ret := Int.lor er.1 r.1
          if r.1 == SIEVE_OK then some (ret, appendStr r.2.1 "Kept\n")
          else
            -- implicit_keep = 0; recursive re-entry after a keep failure
            do_sieve_error interp host fuel ret r.2.1 notify_list
              (some .ACTION_KEEP) false r.2.2
      else
        some (er.1, er.2)

/-! ### The action loop `do_action_list` (script.c lines 730-911) -/

/-- Outcome of dispatching one action (the body of the `switch`). `ierr`
is the `return SIEVE_INTERNAL_ERROR;` taken when a required capability
callback is unregistered — it leaves `do_action_list` immediately,
bypassing `do_sieve_error` entirely. -/
inductive CaseResult where
  | ierr
  | cont (ret : Int) (st : DispatchState) (errmsg : Option String)
  deriving DecidableEq

/-- The shared shape of the simple action cases of the dispatch switch:
check the capability callback (returning `SIEVE_INTERNAL_ERROR` directly
when it is NULL), invoke it, replace `interp->lastitem` with `item`, and
append `line` to the trace buffer when the callback returned `SIEVE_OK`. -/
def simpleCase (cap : Bool) (host : Host) (st : DispatchState)
    (errmsg : Option String) (e : Event) (item : Option String)
    (line : String) : CaseResult :=
  if !cap then .ierr
  else
    let r := invokeErr host st errmsg e
    let st := { r.2.1 with lastitem := item }
    let st := if r.1 == SIEVE_OK then appendStr st line else st
    .cont r.1 st r.2.2

/-- One iteration of the action loop's `switch (a->a)`
(script.c lines 753-894).  `ret0` is the value `ret` has on entry (it is
only read by the `ACTION_DISCARD` and `ACTION_NONE` cases, which do not
overwrite it when no callback runs). -/
def caseStep (interp : Interp) (host : Host) (a : Action) (ret0 : Int)
    (st : DispatchState) (errmsg : Option String) : CaseResult :=
  match a.a with
  | .ACTION_REJECT | .ACTION_EREJECT =>
    simpleCase interp.reject host st errmsg (.evReject a.msg) (some a.msg)
      ((if a.a == .ACTION_EREJECT then "eRejected" else "Rejected") ++
        " with: " ++ a.msg ++ "\n")
  | .ACTION_FILEINTO =>
    simpleCase interp.fileinto host st errmsg (.evFileinto a.mailbox) (some a.mailbox)
      ("Filed into: " ++ a.mailbox ++ "\n")
  | .ACTION_SNOOZE =>
    simpleCase interp.snooze host st errmsg .evSnooze none "Snoozed\n"
  | .ACTION_KEEP =>
    simpleCase interp.keep host st errmsg .evKeep none "Kept\n"
  | .ACTION_REDIRECT =>
    simpleCase interp.redirect host st errmsg (.evRedirect a.addr) (some a.addr)
      ("Redirected to " ++ a.addr ++ "\n")
  | .ACTION_DISCARD =>
    -- discard is optional; with no callback, ret keeps its entry value
    let r := if interp.discard then invokeErr host st errmsg .evDiscard
             else (ret0, st, errmsg)
    let st := { r.2.1 with lastitem := none }
    let st := if r.1 == SIEVE_OK then appendStr st "Discarded\n" else st
    .cont r.1 st r.2.2
  | .ACTION_VACATION =>
    if !interp.vacation then .ierr
    else
      -- "first, let's figure out if we should respond to this"
      let r1 := invokeErr host st errmsg .evAutorespond
      let st1 := { r1.2.1 with lastitem := none }
      if r1.1 == SIEVE_OK then
        -- send the response
        let r2 := invokeErr host st1 r1.2.2 .evSendResponse
        let st2 := if r2.1 == SIEVE_OK then appendStr r2.2.1 "Sent vacation reply\n"
                   else r2.2.1
        .cont r2.1 st2 r2.2.2
      else if r1.1 == SIEVE_DONE then
        .cont SIEVE_OK (appendStr st1 "Vacation reply suppressed\n") r1.2.2
      else
        .cont r1.1 st1 r1.2.2
  | .ACTION_NONE => .cont ret0 st errmsg
  | _ => .cont SIEVE_INTERNAL_ERROR st errmsg

/-- Result of the `while (a != NULL)` action loop: either the direct
`return SIEVE_INTERNAL_ERROR` (missing capability), or fall-through to
`do_sieve_error` with the final `ret`, `lastaction`, `implicit_keep`,
state and errmsg. -/
inductive LoopResult where
  | earlyReturn (ret : Int) (st : DispatchState)
  | fallthrough (ret : Int) (lastaction : Option action_t) (implicit_keep : Bool)
      (st : DispatchState) (errmsg : Option String)
  deriving DecidableEq

/-- The action loop of `do_action_list` (script.c lines 748-905).  Each
iteration sets `lastaction = a->a`, `errmsg = NULL`, folds `!a->cancel_keep`
into `implicit_keep`, runs the switch, and on a non-OK status clears
`implicit_keep` and breaks. -/
def do_action_loop (interp : Interp) (host : Host) :
    List Action → Int → Option action_t → Bool → DispatchState →
    Option String → LoopResult
  | [], ret, la, ik, st, errmsg => .fallthrough ret la ik st errmsg
  | a :: rest, ret, _, ik, st, _ =>
    let la := some a.a
    let ik := ik && !a.cancel_keep
    match caseStep interp host a ret st none with
    | .ierr => .earlyReturn SIEVE_INTERNAL_ERROR st
    | .cont ret st errmsg =>
      if !(ret == SIEVE_OK) then
        -- "uh oh! better bail!": implicit_keep = 0; break
        .fallthrough ret la false st errmsg
      else do_action_loop interp host rest ret la ik st errmsg

/-- Model of `do_action_list`, script.c lines 730-911: reset the trace buffer with
`strcpy(actions_string, "Action(s) taken:\n")`, run the loop, then hand
everything to `do_sieve_error` (unless a missing capability already
returned `SIEVE_INTERNAL_ERROR` directly). -/
def do_action_list (interp : Interp) (host : Host) (fuel : Nat)
    (actions : List Action) (notify_list : Option (List NotifyEntry))
    (st : DispatchState) (errmsg : Option String) : Option (Int × DispatchState) :=
  let st := { st with actions_string := "Action(s) taken:\n" }
  match do_action_loop interp host actions SIEVE_OK none true st errmsg with
  | .earlyReturn ret st => some (ret, st)
  | .fallthrough ret la ik st errmsg =>
    do_sieve_error interp host fuel ret st notify_list la ik errmsg

/-! ### The driver `sieve_execute_bytecode` (script.c lines 920-1011) -/

/-- One `duptrack_list_t` entry: `track` is called for entries with a
non-NULL id. -/
structure DupEntry where
  id : Option String
  seconds : Int
  deriving DecidableEq

/-- What `sieve_eval_bc` (defined in the bytecode evaluator, outside this
file's source) produced: its return status, and the contents it appended to
the three out-lists, plus the errmsg it may have set. -/
structure EvalOutcome where
  ret : Int
  actions : List Action
  notify : List NotifyEntry
  duptrack : List DupEntry
  errmsg : Option String

/-- The duplicate-tracking loop at the end of `sieve_execute_bytecode`
(script.c lines 995-1005): `track` is invoked per entry with a non-NULL id;
its return value is ignored. -/
def trackLoop (host : Host) : DispatchState → List DupEntry → DispatchState
  | st, [] => st
  | st, d :: rest =>
    let st :=
      match d.id with
      | some i => (invoke host st (.evTrack i d.seconds)).2
      | none => st
    trackLoop host st rest

/-- Fuel for the `do_sieve_error` recursion; claim C5 proves 3 frames
always suffice. -/
def errorHandlerFuel : Nat := 3

/-- Model of `sieve_execute_bytecode`, script.c lines 920-1011.  A NULL interpreter
returns `SIEVE_FAIL` at once.  The notify list exists iff `interp->notify`
is registered, the duptrack list iff `interp->duplicate` is (allocation is
by `xmalloc`-backed constructors and is modelled as succeeding).  A
negative status from `sieve_eval_bc` goes to `do_sieve_error` as
`SIEVE_RUN_ERROR` with `implicit_keep` passed as `0`; otherwise the action
list is dispatched.  Finally, duplicate-tracking records are written only
when `interp->duplicate` is set and the overall result is `SIEVE_OK`. -/
def sieve_execute_bytecode (interp : Option Interp) (host : Host)
    (ev : EvalOutcome) : Option (Int × DispatchState) :=
  match interp with
  | none => some (SIEVE_FAIL, initialDispatchState)
  | some interp =>
    let st := initialDispatchState
    let notify_list := if interp.notify then some ev.notify else none
    let res :=
      if ev.ret < 0 then
        do_sieve_error interp host errorHandlerFuel SIEVE_RUN_ERROR st notify_list
          none false ev.errmsg
      else
        do_action_list interp host errorHandlerFuel ev.actions notify_list st ev.errmsg
    match res with
    | none => none
    | some (ret, st) =>
      let st :=
        if interp.duplicate && (ret == SIEVE_OK) then trackLoop host st ev.duptrack
        else st
      some (ret, st)

/-! ### Classifiers used by the claim statements -/

/-- Events produced inside the action loop (host action callbacks). -/
def Event.isActionCb : Event → Bool
  | .evReject _ | .evFileinto _ | .evSnooze | .evKeep | .evRedirect _
  | .evDiscard | .evAutorespond | .evSendResponse => true
  | _ => false

def Event.isNotifyEv : Event → Bool
  | .evNotify _ => true
  | _ => false

def Event.isTrackEv : Event → Bool
  | .evTrack _ _ => true
  | _ => false

/-- Events the error handler `do_sieve_error` can produce. -/
def Event.isErrPhase : Event → Bool
  | .evNotify _ | .evExecuteErr _ | .evImplicitKeep => true
  | _ => false

/-- The notify events `do_sieve_error` emits for a notify list: one per
still-active, well-formed entry, in list order. -/
def notifyTrace (l : List NotifyEntry) : List Event :=
  l.filterMap fun n =>
    if n.isactive && wfNotify n then some (.evNotify (n.method.getD "")) else none

/-- Whether an action kind can be dispatched by `do_action_list` without
hitting a `return SIEVE_INTERNAL_ERROR` (missing capability) or the
`default:` branch. -/
def dispatchable (interp : Interp) : action_t → Bool
  | .ACTION_REJECT | .ACTION_EREJECT => interp.reject
  | .ACTION_FILEINTO => interp.fileinto
  | .ACTION_SNOOZE => interp.snooze
  | .ACTION_KEEP => interp.keep
  | .ACTION_REDIRECT => interp.redirect
  | .ACTION_VACATION => interp.vacation
  | .ACTION_DISCARD => true
  | .ACTION_NONE => true
  | _ => false

/-- An action kind whose required capability callback is unregistered
(claim C8): exactly the kinds whose switch case begins with
`if (!interp-><cap>) return SIEVE_INTERNAL_ERROR;`. -/
def requiredCapUnset (interp : Interp) : action_t → Bool
  | .ACTION_REJECT | .ACTION_EREJECT => !interp.reject
  | .ACTION_FILEINTO => !interp.fileinto
  | .ACTION_SNOOZE => !interp.snooze
  | .ACTION_KEEP => !interp.keep
  | .ACTION_REDIRECT => !interp.redirect
  | .ACTION_VACATION => !interp.vacation
  | _ => false

/-! ### Notification template builder
(`add_header` / `build_notify_message`, script.c lines 321-405)

Characters stand for the bytes the C code scans. -/

/-- The message accessors `build_notify_message` consults.  `getheader h` /
`getenvelope h` model the `const char **h` out-value: `none` for a NULL
array, `some []` for an array whose first entry is NULL.  `getbody` is
`none` when the callback is unregistered; otherwise its value is the
`decoded_body` of the first `text/*` part (`none` when there is no part or
its decoded body is NULL).  `decodeMime` models
`charset_parse_mimeheader`. -/
structure NInterp where
  getheader : String → Option (List String)
  getenvelope : String → Option (List String)
  getbody : Option (Option (List Char))
  decodeMime : String → List Char

/-- Model of `add_header`, script.c lines 321-338: the bytes appended to
the output buffer for one `$from$`/`$env-from$`/`$subject$` expansion.
A NULL header array or a NULL first value appends nothing; otherwise the
MIME-decoded first value is appended. -/
def add_header (i : NInterp) (isenv : Bool) (header : String) : List Char :=
  match (if isenv then i.getenvelope header else i.getheader header) with
  | none => []
  | some [] => []
  | some (v :: _) => i.decodeMime v

/-- Case-insensitive prefix test modelling `strncasecmp(c, pat, n) == 0`
(`Char.toLower` only folds ASCII, as the C `tolower` does for the byte
values the patterns contain). -/
def startsWithCI : List Char → List Char → Bool
  | _, [] => true
  | [], _ :: _ => false
  | c :: cs, p :: ps => (c.toLower == p.toLower) && startsWithCI cs ps

/-- The `c[5] == '[' || c[5] == '$'` test of the `$text` branch (a missing
sixth character is the NUL terminator, which matches neither). -/
def textDelim : List Char → Bool
  | '[' :: _ => true
  | '$' :: _ => true
  | _ => false

/-- The digit loop of the `$text[N]$` branch:
`while (*c != ']') n = n * 10 + (*c++ - '0');  c += 2;`.
`n` is a `size_t`, so the arithmetic wraps modulo 2^64 (`*c - '0'` is an
`int` that may be negative for a non-digit).  Running past the end of the
string (no `]`, or nothing after `]` for `c += 2` to skip) reads beyond
the NUL terminator in C; those executions are modelled as `none`. -/
def textNum : List Char → Nat → Option (Nat × List Char)
  | [], _ => none
  | c :: cs, n =>
    if c == ']' then
      match cs with
      | [] => none
      | _ :: rest => some (n, rest)
    else textNum cs ((n * 10 + ((c.toNat + (2 ^ 64 - 48)) % 2 ^ 64)) % 2 ^ 64)

/-- The bytes appended for a `$text$`/`$text[N]$` expansion
(script.c lines 378-385): the first text part's decoded body, truncated to
`n` bytes when `n` is non-zero. -/
def textChunk (i : NInterp) (n : Nat) : List Char :=
  match i.getbody with
  | some (some body) => if n == 0 then body else body.take n
  | _ => []

/-- The scanning loop of `build_notify_message` (script.c lines 352-401),
with `acc` the bytes accumulated in `out`.  Each iteration consumes at
least one character, so fuel equal to the remaining length never runs out;
`none` arises only from the out-of-bounds reads modelled in `textNum`. -/
def bnm_loop (i : NInterp) : Nat → List Char → List Char → Option (List Char)
  | _, [], acc => some acc
  | 0, _ :: _, _ => none
  | fuel+1, c :: cs, acc =>
    if startsWithCI (c :: cs) "$from$".data then
      bnm_loop i fuel ((c :: cs).drop 6) (acc ++ add_header i false "From")
    else if startsWithCI (c :: cs) "$env-from$".data then
      bnm_loop i fuel ((c :: cs).drop 10) (acc ++ add_header i true "From")
    else if startsWithCI (c :: cs) "$subject$".data then
      bnm_loop i fuel ((c :: cs).drop 9) (acc ++ add_header i false "Subject")
    else if i.getbody.isSome && startsWithCI (c :: cs) "$text".data &&
        textDelim ((c :: cs).drop 5) then
      match (c :: cs).drop 5 with
      | '[' :: ds =>
        match textNum ds 0 with
        | none => none
        | some nr => bnm_loop i fuel nr.2 (acc ++ textChunk i nr.1)
      | _ :: ds => bnm_loop i fuel ds (acc ++ textChunk i 0)
      | [] => none
    else
      -- "find length of plaintext up to next potential variable":
      -- n = strcspn(c+1, "$") + 1, copy n bytes verbatim
      let n := (cs.takeWhile (fun ch => !(ch == '$'))).length + 1
      bnm_loop i fuel ((c :: cs).drop n) (acc ++ (c :: cs).take n)

/-- An output buffer as the host consumer sees it: the accumulated bytes,
and whether a NUL terminator is currently guaranteed past them
(`buf_cstring` establishes it; raw appends such as `buf_appendmap` do
not). -/
structure Buf where
  data : List Char
  cstr : Bool
  deriving DecidableEq

/-- Model of `build_notify_message`, script.c lines 340-405.  A NULL `msg`
returns `SIEVE_OK` at once, leaving the buffer untouched; otherwise the
template is scanned and the final `buf_cstring(out)` guarantees the
terminator. -/
def build_notify_message (i : NInterp) (msg : Option (List Char)) (out : Buf) :
    Option Buf :=
  match msg with
  | none => some out
  | some m =>
    match bnm_loop i m.length m out.data with
    | none => none
    | some data => some { data := data, cstr := true }

/-- Whether a recognized placeholder token starts at this position: the
guards of the four token branches of the scanning loop. -/
def recognizes (i : NInterp) (cs : List Char) : Bool :=
  startsWithCI cs "$from$".data || startsWithCI cs "$env-from$".data ||
  startsWithCI cs "$subject$".data ||
  (i.getbody.isSome && startsWithCI cs "$text".data && textDelim (cs.drop 5))

/-- A template containing no recognized placeholder token at any
position. -/
def noToken (i : NInterp) (msg : List Char) : Bool :=
  (List.range (msg.length + 1)).all fun k => !recognizes i (msg.drop k)

/-! ## Theorems -/

/-- Claim C2: loading a path whose inode is already present in the
handle's blob list returns `SIEVE_SCRIPT_RELOADED`, points `bc_cur` at the
existing blob and leaves the blob list unchanged; a path whose inode is new
is opened, fstat'ed, mapped, prepended to the list and made current, with
`SIEVE_OK` returned. -/
theorem C2_load_dedup_by_inode (fs : FS) (fname : String) (ex : sieve_execute_t)
    (sbuf : Stat) (hstat : fs.stat fname = some sbuf) :
    (∀ bc, ex.bc_list.find? (fun b => sbuf.st_ino == b.inode) = some bc →
      sieve_script_load fs (some fname) (some (some ex)) =
        (SIEVE_SCRIPT_RELOADED, some (some { ex with bc_cur := some bc }))) ∧
    (ex.bc_list.find? (fun b => sbuf.st_ino == b.inode) = none →
      ∀ fd sbuf2, fs.openf 0 fname = some fd → fs.fstat fd = some sbuf2 →
        sieve_script_load fs (some fname) (some (some ex)) =
          (SIEVE_OK,
           some (some { bc_list := { fd := fd, inode := sbuf2.st_ino } :: ex.bc_list,
                        bc_cur := some { fd := fd, inode := sbuf2.st_ino } }))) := by
  constructor
  · intro bc hfind
    simp only [sieve_script_load, hstat, Option.getD_some, hfind]
  · intro hfind fd sbuf2 hopen hfstat
    simp only [sieve_script_load, hstat, Option.getD_some, hfind, hopen, hfstat]

/-- Witness for C2 on a concrete filesystem: both the reload branch and
the fresh-load branch. -/
theorem C2_load_dedup_by_inode_witness :
    (sieve_script_load
        { stat := fun f => if f == "a" then some { st_ino := 7 } else none,
          openf := fun _ f => if f == "a" then some 4 else none,
          fstat := fun fd => if fd == 4 then some { st_ino := 7 } else none }
        (some "a")
        (some (some { bc_list := [{ fd := 4, inode := 7 }],
                      bc_cur := some { fd := 4, inode := 7 } })) =
      (SIEVE_SCRIPT_RELOADED,
       some (some { bc_list := [{ fd := 4, inode := 7 }],
                    bc_cur := some { fd := 4, inode := 7 } }))) ∧
    (sieve_script_load
        { stat := fun f => if f == "a" then some { st_ino := 7 } else none,
          openf := fun _ f => if f == "a" then some 4 else none,
          fstat := fun fd => if fd == 4 then some { st_ino := 7 } else none }
        (some "a") (some none) =
      (SIEVE_OK,
       some (some { bc_list := [{ fd := 4, inode := 7 }],
                    bc_cur := some { fd := 4, inode := 7 } }))) :=
  ⟨(C2_load_dedup_by_inode
      { stat := fun f => if f == "a" then some { st_ino := 7 } else none,
        openf := fun _ f => if f == "a" then some 4 else none,
        fstat := fun fd => if fd == 4 then some { st_ino := 7 } else none } "a"
      { bc_list := [{ fd := 4, inode := 7 }], bc_cur := some { fd := 4, inode := 7 } }
      { st_ino := 7 } (by decide)).1 { fd := 4, inode := 7 } (by decide),
   (C2_load_dedup_by_inode
      { stat := fun f => if f == "a" then some { st_ino := 7 } else none,
        openf := fun _ f => if f == "a" then some 4 else none,
        fstat := fun fd => if fd == 4 then some { st_ino := 7 } else none } "a"
      { bc_list := [], bc_cur := none }
      { st_ino := 7 } (by decide)).2 (by decide) 4 { st_ino := 7 } (by decide) (by decide)⟩

/-- Claim C10: whenever `sieve_script_load` returns `SIEVE_FAIL` (NULL
path, NULL out-pointer, or a failing `stat`/`open`/`fstat`), the caller's
`*ret` is left exactly as it was: no blob is added to an existing handle
and no fresh handle is stored. -/
theorem C10_load_fail_leaves_handle (fs : FS) (fname : Option String)
    (ret : Option (Option sieve_execute_t))
    (hfail : (sieve_script_load fs fname ret).1 = SIEVE_FAIL) :
    (sieve_script_load fs fname ret).2 = ret := by
  rcases fname with _ | fname
  · rcases ret with _ | retv <;> rfl
  rcases ret with _ | retv
  · rfl
  simp only [sieve_script_load] at hfail ⊢
  cases hstat : fs.stat fname with
  | none => simp [hstat]
  | some sbuf =>
    simp only [hstat] at hfail ⊢
    cases hfind : (retv.getD { bc_list := [], bc_cur := none }).bc_list.find?
        (fun bc => sbuf.st_ino == bc.inode) with
    | some bc =>
      simp only [hfind] at hfail
      exact absurd hfail (by decide)
    | none =>
      simp only [hfind] at hfail ⊢
      cases hopen : fs.openf 0 fname with
      | none => simp [hopen]
      | some fd =>
        simp only [hopen] at hfail ⊢
        cases hfstat : fs.fstat fd with
        | none => simp [hfstat]
        | some sbuf2 =>
          simp only [hfstat] at hfail
          exact absurd hfail (by decide)

/-- Witness for C10: a stat failure on a concrete filesystem leaves the
handle pointer untouched. -/
theorem C10_load_fail_leaves_handle_witness :
    (sieve_script_load
        { stat := fun _ => none, openf := fun _ _ => none, fstat := fun _ => none }
        (some "missing")
        (some (some { bc_list := [{ fd := 9, inode := 3 }],
                      bc_cur := some { fd := 9, inode := 3 } }))).2 =
      some (some { bc_list := [{ fd := 9, inode := 3 }],
                   bc_cur := some { fd := 9, inode := 3 } }) :=
  C10_load_fail_leaves_handle _ _ _ (by decide)

/-! ### Lemmas about the notification builder (claim C7) -/

theorem recognizes_nil (i : NInterp) : recognizes i [] = false := by
  simp [recognizes, startsWithCI]

/-- Token-freeness carries over to every suffix. -/
theorem noToken_drop (i : NInterp) (msg : List Char) (h : noToken i msg = true)
    (j : Nat) : noToken i (msg.drop j) = true := by
  simp only [noToken, List.all_eq_true, List.mem_range] at h ⊢
  intro k hk
  rw [List.drop_drop]
  by_cases hj : j + k < msg.length + 1
  · exact h _ hj
  · have hnil : msg.drop (j + k) = [] := List.drop_eq_nil_of_le (by omega)
    rw [hnil]
    simp [recognizes_nil]

/-- The scanning loop copies a token-free template verbatim (the else
branch fires at every position). -/
theorem bnm_loop_noToken (i : NInterp) :
    ∀ (fuel : Nat) (msg acc : List Char), msg.length ≤ fuel → noToken i msg = true →
      bnm_loop i fuel msg acc = some (acc ++ msg) := by
  intro fuel
  induction fuel with
  | zero =>
    intro msg acc hlen _
    have hm : msg = [] := List.eq_nil_of_length_eq_zero (Nat.le_zero.mp hlen)
    subst hm
    simp [bnm_loop]
  | succ fuel ih =>
    intro msg acc hlen htok
    cases msg with
    | nil => simp [bnm_loop]
    | cons c cs =>
      have h0 : recognizes i (c :: cs) = false := by
        have hall := List.all_eq_true.mp htok 0 (by simp)
        simpa using hall
      rw [recognizes] at h0
      simp only [Bool.or_eq_false_iff] at h0
      obtain ⟨⟨⟨h1, h2⟩, h3⟩, h4⟩ := h0
      rw [bnm_loop, h1, h2, h3, h4]
      simp only [Bool.false_eq_true, if_false]
      rw [ih _ _ ?hl (noToken_drop i _ htok _)]
      · rw [List.append_assoc, List.take_append_drop]
      case hl =>
        simp only [List.length_drop, List.length_cons]
        simp only [List.length_cons] at hlen
        omega

/-- Claim C7: notification-message expansion returns a template with no
recognized placeholder token unchanged (so expansion is idempotent on
literal text); every successfully produced output carries the NUL
terminator established by the final `buf_cstring`; and a placeholder whose
header is absent from the message expands to the empty string. -/
theorem C7_notify_template_expansion :
    (∀ (i : NInterp) (m : List Char) (out : Buf), noToken i m = true →
      build_notify_message i (some m) out = some { data := out.data ++ m, cstr := true }) ∧
    (∀ (i : NInterp) (m : List Char) (out b : Buf),
      build_notify_message i (some m) out = some b → b.cstr = true) ∧
    (∀ (i : NInterp) (out : Buf),
      i.getheader "From" = none ∨ i.getheader "From" = some [] →
      build_notify_message i (some "$from$".data) out =
        some { data := out.data, cstr := true }) := by
  refine ⟨?_, ?_, ?_⟩
  · intro i m out h
    simp only [build_notify_message, bnm_loop_noToken i m.length m out.data le_rfl h]
  · intro i m out b h
    simp only [build_notify_message] at h
    cases hl : bnm_loop i m.length m out.data with
    | none => rw [hl] at h; cases h
    | some data => rw [hl] at h; cases h; rfl
  · intro i out h
    have hdr : add_header i false "From" = [] := by
      rcases h with h | h <;> simp [add_header, h]
    have hloop : bnm_loop i 6 "$from$".data out.data =
        some (out.data ++ add_header i false "From") := by
      show bnm_loop i 6 ('$' :: 'f' :: 'r' :: 'o' :: 'm' :: '$' :: []) out.data = _
      rw [bnm_loop]
      simp [startsWithCI, bnm_loop]
    simp only [build_notify_message]
    rw [show ("$from$".data).length = 6 from rfl, hloop, hdr]
    simp

/-- Witness for C7: a concrete token-free template is copied verbatim and
terminated; a concrete `$from$` template with the From header absent
expands to the empty string. -/
theorem C7_notify_template_expansion_witness :
    (build_notify_message
        { getheader := fun _ => none
          getenvelope := fun _ => none
          getbody := none
          decodeMime := fun s => s.data }
        (some "hello $x world".data) { data := [], cstr := false } =
      some { data := "hello $x world".data, cstr := true }) ∧
    (∀ b : Buf,
      build_notify_message
        { getheader := fun _ => none
          getenvelope := fun _ => none
          getbody := none
          decodeMime := fun s => s.data }
        (some "hello $x world".data) { data := [], cstr := false } = some b →
      b.cstr = true) ∧
    (build_notify_message
        { getheader := fun _ => none
          getenvelope := fun _ => none
          getbody := none
          decodeMime := fun s => s.data }
        (some "$from$".data) { data := [], cstr := false } =
      some { data := [], cstr := true }) := by
  refine ⟨?_, ?_, ?_⟩
  · have h := C7_notify_template_expansion.1
      { getheader := fun _ => none
        getenvelope := fun _ => none
        getbody := none
        decodeMime := fun s => s.data }
      "hello $x world".data { data := [], cstr := false } (by decide)
    simpa using h
  · intro b hb
    exact C7_notify_template_expansion.2.1 _ "hello $x world".data
      { data := [], cstr := false } b hb
  · exact C7_notify_template_expansion.2.2
      { getheader := fun _ => none
        getenvelope := fun _ => none
        getbody := none
        decodeMime := fun s => s.data }
      { data := [], cstr := false } (Or.inl rfl)

/-! ### Event classification lemmas -/

theorem errPhase_not_actionCb {e : Event} (h : e.isErrPhase = true) :
    e.isActionCb = false := by
  cases e <;> simp_all [Event.isErrPhase, Event.isActionCb]

theorem errPhase_not_track {e : Event} (h : e.isErrPhase = true) :
    e.isTrackEv = false := by
  cases e <;> simp_all [Event.isErrPhase, Event.isTrackEv]

theorem actionCb_not_track {e : Event} (h : e.isActionCb = true) :
    e.isTrackEv = false := by
  cases e <;> simp_all [Event.isActionCb, Event.isTrackEv]

theorem actionCb_not_notify {e : Event} (h : e.isActionCb = true) :
    e.isNotifyEv = false := by
  cases e <;> simp_all [Event.isActionCb, Event.isNotifyEv]

theorem actionCb_ne_implicitKeep {e : Event} (h : e.isActionCb = true) :
    e ≠ .evImplicitKeep := by
  cases e <;> simp_all [Event.isActionCb]

theorem notifyEv_ne_implicitKeep {e : Event} (h : e.isNotifyEv = true) :
    e ≠ .evImplicitKeep := by
  cases e <;> simp_all [Event.isNotifyEv]

/-! ### Lemmas about `notifyTrace` and the notify loop -/

theorem notifyTrace_mem {l : List NotifyEntry} :
    ∀ e ∈ notifyTrace l, e.isNotifyEv = true := by
  intro e he
  simp only [notifyTrace, List.mem_filterMap] at he
  obtain ⟨n, _, hn⟩ := he
  split at hn
  · cases hn; rfl
  · cases hn

theorem notifyTrace_errPhase {l : List NotifyEntry} :
    ∀ e ∈ notifyTrace l, e.isErrPhase = true := by
  intro e he
  have := notifyTrace_mem e he
  cases e <;> simp_all [Event.isNotifyEv, Event.isErrPhase]

theorem notifyTrace_count_ik (l : List NotifyEntry) :
    (notifyTrace l).count .evImplicitKeep = 0 := by
  rw [List.count_eq_zero]
  intro hmem
  exact notifyEv_ne_implicitKeep (notifyTrace_mem _ hmem) rfl

theorem notifyTrace_filter (l : List NotifyEntry) :
    (notifyTrace l).filter (·.isNotifyEv) = notifyTrace l :=
  List.filter_eq_self.mpr notifyTrace_mem

/-- The notify loop only appends the active well-formed entries' events to
the trace and leaves `actions_string` and `lastitem` alone. -/
theorem notifyLoop_st (host : Host) :
    ∀ (l : List NotifyEntry) (ret nret : Int) (la : Option action_t)
      (st : DispatchState) (errmsg : Option String),
      (notifyLoop host l ret nret la st errmsg).st.trace = st.trace ++ notifyTrace l ∧
      (notifyLoop host l ret nret la st errmsg).st.actions_string = st.actions_string ∧
      (notifyLoop host l ret nret la st errmsg).st.lastitem = st.lastitem := by
  intro l
  induction l with
  | nil => intro ret nret la st errmsg; simp [notifyLoop, notifyTrace]
  | cons n rest ih =>
    intro ret nret la st errmsg
    by_cases ha : n.isactive
    · by_cases hw : wfNotify n
      · have hnt : notifyTrace (n :: rest) =
            .evNotify (n.method.getD "") :: notifyTrace rest := by
          simp [notifyTrace, List.filterMap_cons, ha, hw]
        simp only [notifyLoop, ha, if_true, send_notify_callback, hw, Bool.not_true,
          Bool.false_eq_true, if_false, invokeErr, hnt]
        refine ⟨?_, (ih _ _ _ _ _).2.1, (ih _ _ _ _ _).2.2⟩
        rw [(ih _ _ _ _ _).1]
        simp
      · have hnt : notifyTrace (n :: rest) = notifyTrace rest := by
          simp [notifyTrace, List.filterMap_cons, ha, hw]
        simp only [notifyLoop, ha, if_true, send_notify_callback, hw, Bool.not_false,
          if_true, hnt]
        exact ih _ _ _ _ _
    · have hnt : notifyTrace (n :: rest) = notifyTrace rest := by
        simp [notifyTrace, List.filterMap_cons, ha]
      simp only [notifyLoop, ha, Bool.false_eq_true, if_false, hnt]
      exact ih _ _ _ _ _

/-- With an all-OK host, the notify loop keeps `ret = SIEVE_RUN_ERROR`:
well-formed entries contribute `SIEVE_OK`, malformed ones
`SIEVE_RUN_ERROR`, and both are absorbed by bitwise or. -/
theorem notifyLoop_ret6 (host : Host) (hOK : ∀ k, host.result k = SIEVE_OK) :
    ∀ (l : List NotifyEntry) (nret : Int) (la : Option action_t)
      (st : DispatchState) (errmsg : Option String),
      (notifyLoop host l SIEVE_RUN_ERROR nret la st errmsg).ret = SIEVE_RUN_ERROR := by
  intro l
  induction l with
  | nil => intro nret la st errmsg; rfl
  | cons n rest ih =>
    intro nret la st errmsg
    by_cases ha : n.isactive
    · by_cases hw : wfNotify n
      · simp only [notifyLoop, ha, if_true, send_notify_callback, hw, Bool.not_true,
          Bool.false_eq_true, if_false, invokeErr, hOK]
        have h6 : Int.lor SIEVE_RUN_ERROR SIEVE_OK = SIEVE_RUN_ERROR := by decide
        rw [h6]
        exact ih _ _ _ _
      · simp only [notifyLoop, ha, if_true, send_notify_callback, hw, Bool.not_false,
          if_true]
        have h6 : Int.lor SIEVE_RUN_ERROR SIEVE_RUN_ERROR = SIEVE_RUN_ERROR := by decide
        rw [h6]
        exact ih _ _ _ _
    · simp only [notifyLoop, ha, Bool.false_eq_true, if_false]
      exact ih _ _ _ _

/-! ### Lemmas about the error-line and execute_err steps -/

theorem errorLineStep_trace (ret : Int) (st : DispatchState) (la : Option action_t)
    (errmsg : Option String) :
    (errorLineStep ret st la errmsg).trace = st.trace ∧
    (errorLineStep ret st la errmsg).lastitem = st.lastitem := by
  unfold errorLineStep
  split
  · exact ⟨rfl, rfl⟩
  · split <;> exact ⟨rfl, rfl⟩

theorem execErrStep_spec (interp : Interp) (host : Host) (ret : Int)
    (st : DispatchState) (la : Option action_t) (errmsg : Option String) :
    ∃ Δ, (execErrStep interp host ret st la errmsg).2.trace = st.trace ++ Δ ∧
      (∀ e ∈ Δ, ∃ b, e = .evExecuteErr b) ∧
      (execErrStep interp host ret st la errmsg).2.actions_string = st.actions_string ∧
      (execErrStep interp host ret st la errmsg).2.lastitem = st.lastitem := by
  unfold execErrStep
  split
  · exact ⟨[.evExecuteErr (execute_err_buf ret st.lastitem la errmsg)],
      by simp [invoke], by simp, by simp [invoke], by simp [invoke]⟩
  · exact ⟨[], by simp, by simp, rfl, rfl⟩

theorem execErrStep_ret_ok (interp : Interp) (host : Host) (st : DispatchState)
    (la : Option action_t) (errmsg : Option String) :
    execErrStep interp host SIEVE_OK st la errmsg = (SIEVE_OK, st) := by
  simp [execErrStep]

theorem execErrStep_ret6 (interp : Interp) (host : Host)
    (hOK : ∀ k, host.result k = SIEVE_OK) (st : DispatchState)
    (la : Option action_t) (errmsg : Option String) :
    (execErrStep interp host SIEVE_RUN_ERROR st la errmsg).1 = SIEVE_RUN_ERROR := by
  unfold execErrStep
  split
  · simp only [invoke, hOK]
    decide
  · rfl

theorem execDelta_props {Δ : List Event}
    (h : ∀ e ∈ Δ, ∃ b, e = Event.evExecuteErr b) :
    (∀ e ∈ Δ, e.isErrPhase = true) ∧ Δ.filter (·.isNotifyEv) = [] ∧
    Δ.count .evImplicitKeep = 0 := by
  refine ⟨?_, ?_, ?_⟩
  · intro e he
    obtain ⟨b, rfl⟩ := h e he
    rfl
  · rw [List.filter_eq_nil_iff]
    intro e he
    obtain ⟨b, rfl⟩ := h e he
    simp [Event.isNotifyEv]
  · rw [List.count_eq_zero]
    intro hm
    obtain ⟨b, hb⟩ := h _ hm
    simp at hb

/-! ### Master lemma about `do_sieve_error` -/

/-- The error handler only appends error-phase events (notify,
execute_err, implicit keep); its notify events are exactly `notifyTrace`
of the notify list when the notify block runs, and nothing otherwise; and
with implicit keep disabled it emits no implicit-keep event. -/
theorem do_sieve_error_spec (interp : Interp) (host : Host) :
    ∀ (fuel : Nat) (ret : Int) (st : DispatchState) (nl : Option (List NotifyEntry))
      (la : Option action_t) (ik : Bool) (errmsg : Option String) (r : Int)
      (st' : DispatchState),
      do_sieve_error interp host fuel ret st nl la ik errmsg = some (r, st') →
      ∃ Δ, st'.trace = st.trace ++ Δ ∧ (∀ e ∈ Δ, e.isErrPhase = true) ∧
        Δ.filter (·.isNotifyEv) =
          (if interp.notify && nl.isSome then notifyTrace (nl.getD []) else []) ∧
        (ik = false → Δ.count .evImplicitKeep = 0) := by
  intro fuel
  induction fuel with
  | zero => intro ret st nl la ik errmsg r st' h; cases h
  | succ fuel ih =>
    intro ret st nl la ik errmsg r st' h
    by_cases hnb : (interp.notify && nl.isSome) = true
    · have hnb2 := hnb
      rw [Bool.and_eq_true] at hnb2
      obtain ⟨hni, hnls⟩ := hnb2
      obtain ⟨l, rfl⟩ : ∃ l, nl = some l := Option.isSome_iff_exists.mp hnls
      simp only [do_sieve_error, hnb, if_true, Bool.true_and, Option.getD_some,
        invokeErr] at h
      obtain ⟨hNt, -, -⟩ :=
        notifyLoop_st host l ret SIEVE_OK la (errorLineStep ret st la errmsg) errmsg
      obtain ⟨eeΔ, hee, heeP, -, -⟩ :=
        execErrStep_spec interp host
          (notifyLoop host l ret SIEVE_OK la (errorLineStep ret st la errmsg) errmsg).ret
          (notifyLoop host l ret SIEVE_OK la (errorLineStep ret st la errmsg) errmsg).st
          (notifyLoop host l ret SIEVE_OK la (errorLineStep ret st la errmsg) errmsg).lastaction
          (notifyLoop host l ret SIEVE_OK la (errorLineStep ret st la errmsg) errmsg).errmsg
      obtain ⟨heeE, heeF, heeC⟩ := execDelta_props heeP
      split at h
      · -- notification failure: recursive re-entry with a cleared list
        obtain ⟨Δ₂, ht2, he2, hf2, hc2⟩ := ih _ _ _ _ _ _ _ _ h
        simp only [Option.isSome_none, Bool.and_false, Bool.false_eq_true, if_false] at hf2
        refine ⟨notifyTrace l ++ Δ₂, ?_, ?_, ?_, ?_⟩
        · rw [ht2, hNt, (errorLineStep_trace ret st la errmsg).1, List.append_assoc]
        · intro e he
          rcases List.mem_append.mp he with h' | h'
          · exact notifyTrace_errPhase e h'
          · exact he2 e h'
        · rw [List.filter_append, notifyTrace_filter, hf2, List.append_nil]
          simp [hni]
        · intro hikf
          rw [List.count_append, notifyTrace_count_ik, hc2 hikf]
      · -- notifications all OK (or none active): execute_err, then keep
        split at h
        · -- implicit keep enabled
          split at h
          · cases h
          · split at h
            · -- implicit keep succeeded
              simp only [Option.some.injEq, Prod.mk.injEq] at h
              obtain ⟨-, hst⟩ := h
              subst hst
              refine ⟨notifyTrace l ++ (eeΔ ++ [.evImplicitKeep]), ?_, ?_, ?_, ?_⟩
              · simp [appendStr, hee, hNt, (errorLineStep_trace ret st la errmsg).1,
                  List.append_assoc]
              · intro e he
                rcases List.mem_append.mp he with h' | h'
                · exact notifyTrace_errPhase e h'
                · rcases List.mem_append.mp h' with h'' | h''
                  · exact heeE e h''
                  · simp only [List.mem_singleton] at h''
                    subst h''
                    rfl
              · rw [List.filter_append, notifyTrace_filter, List.filter_append, heeF]
                simp [hni, Event.isNotifyEv]
              · intro hikf
                exact absurd ((by assumption : ik = true).symm.trans hikf) (by decide)
            · -- implicit keep failed: recursive re-entry with keep disabled
              obtain ⟨Δ₂, ht2, he2, hf2, hc2⟩ := ih _ _ _ _ _ _ _ _ h
              simp only [Option.isSome_none, Bool.and_false, Bool.false_eq_true,
                if_false] at hf2
              refine ⟨notifyTrace l ++ (eeΔ ++ ([.evImplicitKeep] ++ Δ₂)), ?_, ?_, ?_, ?_⟩
              · simp [ht2, hee, hNt, (errorLineStep_trace ret st la errmsg).1,
                  List.append_assoc]
              · intro e he
                rcases List.mem_append.mp he with h' | h'
                · exact notifyTrace_errPhase e h'
                · rcases List.mem_append.mp h' with h'' | h''
                  · exact heeE e h''
                  · rcases List.mem_append.mp h'' with h3 | h3
                    · simp only [List.mem_singleton] at h3
                      subst h3
                      rfl
                    · exact he2 e h3
              · rw [List.filter_append, notifyTrace_filter, List.filter_append, heeF,
                  List.filter_append, hf2]
                simp [hni, Event.isNotifyEv]
              · intro hikf
                exact absurd ((by assumption : ik = true).symm.trans hikf) (by decide)
        · -- implicit keep disabled
          simp only [Option.some.injEq, Prod.mk.injEq] at h
          obtain ⟨-, hst⟩ := h
          subst hst
          refine ⟨notifyTrace l ++ eeΔ, ?_, ?_, ?_, ?_⟩
          · rw [hee, hNt, (errorLineStep_trace ret st la errmsg).1, List.append_assoc]
          · intro e he
            rcases List.mem_append.mp he with h' | h'
            · exact notifyTrace_errPhase e h'
            · exact heeE e h'
          · rw [List.filter_append, notifyTrace_filter, heeF]
            simp [hni]
          · intro hikf
            rw [List.count_append, notifyTrace_count_ik, heeC]
    · have hnb' : (interp.notify && nl.isSome) = false := by
        revert hnb
        cases interp.notify && nl.isSome <;> simp
      simp only [do_sieve_error, hnb', Bool.false_eq_true, if_false, Bool.false_and,
        Bool.not_false, invokeErr] at h
      obtain ⟨eeΔ, hee, heeP, -, -⟩ :=
        execErrStep_spec interp host ret (errorLineStep ret st la errmsg) la errmsg
      obtain ⟨heeE, heeF, heeC⟩ := execDelta_props heeP
      split at h
      · -- implicit keep enabled
        split at h
        · cases h
        · split at h
          · -- implicit keep succeeded
            simp only [Option.some.injEq, Prod.mk.injEq] at h
            obtain ⟨-, hst⟩ := h
            subst hst
            refine ⟨eeΔ ++ [.evImplicitKeep], ?_, ?_, ?_, ?_⟩
            · simp [appendStr, hee, (errorLineStep_trace ret st la errmsg).1,
                List.append_assoc]
            · intro e he
              rcases List.mem_append.mp he with h' | h'
              · exact heeE e h'
              · simp only [List.mem_singleton] at h'
                subst h'
                rfl
            · rw [List.filter_append, heeF]
              simp [hnb', Event.isNotifyEv]
            · intro hikf
              exact absurd ((by assumption : ik = true).symm.trans hikf) (by decide)
          · -- implicit keep failed: recursion, notify block still off
            obtain ⟨Δ₂, ht2, he2, hf2, hc2⟩ := ih _ _ _ _ _ _ _ _ h
            rw [hnb'] at hf2
            simp only [Bool.false_eq_true, if_false] at hf2
            refine ⟨eeΔ ++ ([.evImplicitKeep] ++ Δ₂), ?_, ?_, ?_, ?_⟩
            · simp [ht2, hee, (errorLineStep_trace ret st la errmsg).1,
                List.append_assoc]
            · intro e he
              rcases List.mem_append.mp he with h' | h'
              · exact heeE e h'
              · rcases List.mem_append.mp h' with h'' | h''
                · simp only [List.mem_singleton] at h''
                  subst h''
                  rfl
                · exact he2 e h''
            · rw [List.filter_append, heeF, List.filter_append, hf2]
              simp [hnb', Event.isNotifyEv]
            · intro hikf
              exact absurd ((by assumption : ik = true).symm.trans hikf) (by decide)
      · -- implicit keep disabled
        simp only [Option.some.injEq, Prod.mk.injEq] at h
        obtain ⟨-, hst⟩ := h
        subst hst
        refine ⟨eeΔ, ?_, ?_, ?_, ?_⟩
        · rw [hee, (errorLineStep_trace ret st la errmsg).1]
        · exact heeE
        · rw [heeF]
          simp [hnb']
        · intro hikf
          exact heeC

/-! ### Termination of the error handler (claim C5) and the all-OK
implicit-keep count -/

/-- Base frame: with implicit keep disabled and the notify block off,
`do_sieve_error` returns without any recursion. -/
theorem do_sieve_error_some_base (interp : Interp) (host : Host)
    (fuel : Nat) (ret : Int) (st : DispatchState) (nl : Option (List NotifyEntry))
    (la : Option action_t) (errmsg : Option String)
    (hnb : (interp.notify && nl.isSome) = false) :
    ∃ r st', do_sieve_error interp host (fuel+1) ret st nl la false errmsg =
      some (r, st') := by
  simp only [do_sieve_error, hnb, Bool.false_eq_true, if_false, Bool.false_and,
    Bool.not_false]
  exact ⟨_, _, rfl⟩

/-- With the notify block off and `interp->keep` registered, two frames
suffice: an implicit-keep failure re-enters once with keep disabled and
that call returns directly. -/
theorem do_sieve_error_some_nonotify (interp : Interp) (host : Host)
    (fuel : Nat) (ret : Int) (st : DispatchState) (nl : Option (List NotifyEntry))
    (la : Option action_t) (ik : Bool) (errmsg : Option String)
    (hnb : (interp.notify && nl.isSome) = false) (hkeep : interp.keep = true) :
    ∃ r st', do_sieve_error interp host (fuel+2) ret st nl la ik errmsg =
      some (r, st') := by
  cases ik with
  | false => exact do_sieve_error_some_base interp host (fuel+1) ret st nl la errmsg hnb
  | true =>
    rw [show fuel + 2 = (fuel + 1) + 1 from rfl, do_sieve_error]
    simp only [hnb, Bool.false_eq_true, if_false, Bool.false_and,
      Bool.not_false, hkeep, Bool.not_true, if_true, invokeErr]
    split
    · exact ⟨_, _, rfl⟩
    · exact do_sieve_error_some_base interp host fuel _ _ nl _ _ hnb

/-- With implicit keep already disabled, two frames suffice whatever the
notify list is (a notification failure re-enters once with the list
cleared). -/
theorem do_sieve_error_some_ik_false (interp : Interp) (host : Host)
    (fuel : Nat) (ret : Int) (st : DispatchState) (nl : Option (List NotifyEntry))
    (la : Option action_t) (errmsg : Option String) :
    ∃ r st', do_sieve_error interp host (fuel+2) ret st nl la false errmsg =
      some (r, st') := by
  by_cases hnb : (interp.notify && nl.isSome) = true
  · rw [show fuel + 2 = (fuel + 1) + 1 from rfl, do_sieve_error]
    simp only [hnb, if_true, Bool.true_and]
    split
    · exact do_sieve_error_some_base interp host fuel _ _ none _ _ (by simp)
    · simp only [Bool.false_eq_true, if_false]
      exact ⟨_, _, rfl⟩
  · have hnb' : (interp.notify && nl.isSome) = false := by
      revert hnb
      cases interp.notify && nl.isSome <;> simp
    exact do_sieve_error_some_base interp host (fuel+1) ret st nl la errmsg hnb'

/-- Claim C5: the error handler always terminates, within three activation
frames — the notify list is cleared before the notification-failure
re-entry and implicit keep is disabled before the keep-failure re-entry,
so at most two re-entries happen and the last returns directly.
(`interp->keep` must be registered, as the keep block calls it without a
NULL check.) -/
theorem C5_error_handler_terminates (interp : Interp) (host : Host)
    (hkeep : interp.keep = true) (ret : Int) (st : DispatchState)
    (nl : Option (List NotifyEntry)) (la : Option action_t) (ik : Bool)
    (errmsg : Option String) :
    ∃ r st', do_sieve_error interp host 3 ret st nl la ik errmsg = some (r, st') := by
  by_cases hnb : (interp.notify && nl.isSome) = true
  · show ∃ r st', do_sieve_error interp host (2+1) ret st nl la ik errmsg = some (r, st')
    rw [do_sieve_error]
    simp only [hnb, if_true, Bool.true_and]
    split
    · exact do_sieve_error_some_nonotify interp host 0 _ _ none _ ik _ (by simp) hkeep
    · cases ik with
      | false =>
        simp only [Bool.false_eq_true, if_false]
        exact ⟨_, _, rfl⟩
      | true =>
        simp only [hkeep, Bool.not_true, Bool.false_eq_true, if_false, if_true, invokeErr]
        split
        · exact ⟨_, _, rfl⟩
        · exact do_sieve_error_some_base interp host 1 _ _ none _ _ (by simp)
  · have hnb' : (interp.notify && nl.isSome) = false := by
      revert hnb
      cases interp.notify && nl.isSome <;> simp
    exact do_sieve_error_some_nonotify interp host 1 ret st nl la ik errmsg hnb' hkeep

/-- Witness for C5 at a concrete call. -/
theorem C5_error_handler_terminates_witness :
    ∃ r st', do_sieve_error
      { reject := true, fileinto := true, snooze := true, keep := true, redirect := true,
        discard := true, vacation := true, notify := true, execute_err := true,
        duplicate := true, edited_headers := false }
      { result := fun _ => SIEVE_FAIL, errOut := fun _ => none }
      3 SIEVE_FAIL initialDispatchState
      (some [{ isactive := true, method := some "mailto", options := some [],
               priority := some "low", message := some "m" }])
      none true none = some (r, st') :=
  C5_error_handler_terminates _ _ rfl _ _ _ _ _ _

/-- One frame of the all-OK implicit-keep computation: with the notify
block off and an always-OK host, the keep callback is invoked exactly once
and succeeds. -/
theorem do_sieve_error_count_nonotify (interp : Interp) (host : Host)
    (hOK : ∀ k, host.result k = SIEVE_OK) (hkeep : interp.keep = true)
    (fuel : Nat) (ret : Int) (st : DispatchState) (nl : Option (List NotifyEntry))
    (la : Option action_t) (errmsg : Option String)
    (hnb : (interp.notify && nl.isSome) = false) :
    ∃ r st', do_sieve_error interp host (fuel+1) ret st nl la true errmsg =
        some (r, st') ∧
      st'.trace.count .evImplicitKeep = st.trace.count .evImplicitKeep + 1 := by
  obtain ⟨eeΔ, hee, heeP, -, -⟩ :=
    execErrStep_spec interp host ret (errorLineStep ret st la errmsg) la errmsg
  obtain ⟨-, -, heeC⟩ := execDelta_props heeP
  rw [do_sieve_error]
  simp only [hnb, Bool.false_eq_true, if_false, Bool.false_and,
    Bool.not_false, hkeep, Bool.not_true, if_true, invokeErr, hOK]
  simp only [beq_self_eq_true, if_true]
  refine ⟨_, _, rfl, ?_⟩
  simp [appendStr, hee, (errorLineStep_trace ret st la errmsg).1, List.count_append, heeC]

/-- With an always-OK host and `interp->keep` registered, enabled implicit
keep is dispatched exactly once (whether or not malformed notify entries
force the error handler to re-enter). -/
theorem do_sieve_error_count_ik (interp : Interp) (host : Host)
    (hOK : ∀ k, host.result k = SIEVE_OK) (hkeep : interp.keep = true)
    (fuel : Nat) (ret : Int) (st : DispatchState) (nl : Option (List NotifyEntry))
    (la : Option action_t) (errmsg : Option String) :
    ∃ r st', do_sieve_error interp host (fuel+2) ret st nl la true errmsg =
        some (r, st') ∧
      st'.trace.count .evImplicitKeep = st.trace.count .evImplicitKeep + 1 := by
  by_cases hnb : (interp.notify && nl.isSome) = true
  · have hnb2 := hnb
    rw [Bool.and_eq_true] at hnb2
    obtain ⟨hni, hnls⟩ := hnb2
    obtain ⟨l, rfl⟩ : ∃ l, nl = some l := Option.isSome_iff_exists.mp hnls
    obtain ⟨hNt, -, -⟩ :=
      notifyLoop_st host l ret SIEVE_OK la (errorLineStep ret st la errmsg) errmsg
    rw [show fuel + 2 = (fuel + 1) + 1 from rfl, do_sieve_error]
    simp only [hnb, if_true, Bool.true_and, Option.getD_some]
    split
    · -- notification failure: one re-entry with the list cleared
      obtain ⟨r, st', heq, hcnt⟩ := do_sieve_error_count_nonotify interp host hOK hkeep
        fuel _ _ none _ _ (by simp)
      refine ⟨r, st', heq, ?_⟩
      rw [hcnt, hNt, (errorLineStep_trace ret st la errmsg).1, List.count_append,
        notifyTrace_count_ik]
    · -- notifications all OK: keep runs in this frame
      obtain ⟨eeΔ, hee, heeP, -, -⟩ :=
        execErrStep_spec interp host
          (notifyLoop host l ret SIEVE_OK la (errorLineStep ret st la errmsg) errmsg).ret
          (notifyLoop host l ret SIEVE_OK la (errorLineStep ret st la errmsg) errmsg).st
          (notifyLoop host l ret SIEVE_OK la (errorLineStep ret st la errmsg) errmsg).lastaction
          (notifyLoop host l ret SIEVE_OK la (errorLineStep ret st la errmsg) errmsg).errmsg
      obtain ⟨-, -, heeC⟩ := execDelta_props heeP
      simp only [hkeep, Bool.not_true, Bool.false_eq_true, if_false, if_true, invokeErr,
        hOK]
      simp only [beq_self_eq_true, if_true]
      refine ⟨_, _, rfl, ?_⟩
      simp [appendStr, hee, hNt, (errorLineStep_trace ret st la errmsg).1,
        List.count_append, heeC, notifyTrace_count_ik]
  · have hnb' : (interp.notify && nl.isSome) = false := by
      revert hnb
      cases interp.notify && nl.isSome <;> simp
    exact do_sieve_error_count_nonotify interp host hOK hkeep (fuel+1) ret st nl la
      errmsg hnb'


/-! ### Lemmas about the action loop -/

theorem simpleCase_cont (cap : Bool) (host : Host) (st : DispatchState)
    (errmsg : Option String) (e : Event) (item : Option String) (line : String)
    (r : Int) (st' : DispatchState) (e' : Option String)
    (h : simpleCase cap host st errmsg e item line = .cont r st' e') :
    st'.trace = st.trace ++ [e] := by
  unfold simpleCase at h
  split at h
  · cases h
  · simp only [invokeErr] at h
    cases h
    split <;> simp [appendStr]

/-- Whatever one switch iteration does, it only appends action-callback
events to the trace. -/
theorem caseStep_cont_trace (interp : Interp) (host : Host) (a : Action) (ret0 : Int)
    (st : DispatchState) (errmsg : Option String) (r : Int) (st' : DispatchState)
    (e' : Option String)
    (h : caseStep interp host a ret0 st errmsg = .cont r st' e') :
    ∃ Δ, st'.trace = st.trace ++ Δ ∧ ∀ e ∈ Δ, e.isActionCb = true := by
  rcases a with ⟨k, ck, msg, mbx, adr⟩
  cases k
  case ACTION_REJECT | ACTION_EREJECT | ACTION_FILEINTO | ACTION_SNOOZE
      | ACTION_KEEP | ACTION_REDIRECT =>
    simp only [caseStep] at h
    refine ⟨_, simpleCase_cont _ _ _ _ _ _ _ _ _ _ h, ?_⟩
    intro e he
    simp only [List.mem_singleton] at he
    subst he
    rfl
  case ACTION_DISCARD =>
    by_cases hd : interp.discard
    · simp only [caseStep, hd, if_true, invokeErr] at h
      cases h
      refine ⟨[.evDiscard], ?_, ?_⟩
      · split <;> simp [appendStr]
      · intro e he
        simp only [List.mem_singleton] at he
        subst he
        rfl
    · simp only [caseStep, hd, Bool.false_eq_true, if_false] at h
      cases h
      refine ⟨[], ?_, by simp⟩
      split <;> simp [appendStr]
  case ACTION_VACATION =>
    simp only [caseStep, invokeErr] at h
    split at h
    · cases h
    · split at h
      · cases h
        refine ⟨[.evAutorespond, .evSendResponse], ?_, ?_⟩
        · split <;> simp [appendStr]
        · intro e he
          simp only [List.mem_cons, List.not_mem_nil, or_false] at he
          rcases he with rfl | rfl <;> rfl
      · split at h
        · cases h
          refine ⟨[.evAutorespond], by simp [appendStr], ?_⟩
          intro e he
          simp only [List.mem_singleton] at he
          subst he
          rfl
        · cases h
          refine ⟨[.evAutorespond], by simp, ?_⟩
          intro e he
          simp only [List.mem_singleton] at he
          subst he
          rfl
  all_goals
    simp only [caseStep] at h
    cases h
    exact ⟨[], by simp, by simp⟩

/-- With an all-OK host and a dispatchable action, the switch iteration
continues with `SIEVE_OK`. -/
theorem caseStep_ok (interp : Interp) (host : Host) (a : Action)
    (st : DispatchState) (errmsg : Option String)
    (hOK : ∀ k, host.result k = SIEVE_OK) (hd : dispatchable interp a.a = true) :
    ∃ st' e', caseStep interp host a SIEVE_OK st errmsg = .cont SIEVE_OK st' e' := by
  rcases a with ⟨k, ck, msg, mbx, adr⟩
  cases k <;> simp only [dispatchable] at hd
  case ACTION_REJECT | ACTION_EREJECT | ACTION_FILEINTO | ACTION_SNOOZE
      | ACTION_KEEP | ACTION_REDIRECT =>
    simp only [caseStep, simpleCase, hd, Bool.not_true, Bool.false_eq_true, if_false,
      invokeErr, hOK]
    exact ⟨_, _, rfl⟩
  case ACTION_DISCARD =>
    by_cases hdis : interp.discard
    · simp only [caseStep, hdis, if_true, invokeErr, hOK]
      exact ⟨_, _, rfl⟩
    · simp only [caseStep, hdis, Bool.false_eq_true, if_false]
      exact ⟨_, _, rfl⟩
  case ACTION_VACATION =>
    simp only [caseStep, hd, Bool.not_true, Bool.false_eq_true, if_false, invokeErr,
      hOK, beq_self_eq_true, if_true]
    exact ⟨_, _, rfl⟩
  case ACTION_NONE =>
    exact ⟨st, errmsg, rfl⟩
  all_goals cases hd

/-- The action loop only appends action-callback events to the trace. -/
theorem do_action_loop_trace (interp : Interp) (host : Host) :
    ∀ (acts : List Action) (ret : Int) (la : Option action_t) (ik : Bool)
      (st : DispatchState) (errmsg : Option String),
      (∀ r st', do_action_loop interp host acts ret la ik st errmsg =
          .earlyReturn r st' →
        ∃ Δ, st'.trace = st.trace ++ Δ ∧ ∀ e ∈ Δ, e.isActionCb = true) ∧
      (∀ r la' ik' st' e', do_action_loop interp host acts ret la ik st errmsg =
          .fallthrough r la' ik' st' e' →
        ∃ Δ, st'.trace = st.trace ++ Δ ∧ ∀ e ∈ Δ, e.isActionCb = true) := by
  intro acts
  induction acts with
  | nil =>
    intro ret la ik st errmsg
    constructor
    · intro r st' h
      simp [do_action_loop] at h
    · intro r la' ik' st' e' h
      simp only [do_action_loop, LoopResult.fallthrough.injEq] at h
      obtain ⟨-, -, -, hst, -⟩ := h
      subst hst
      exact ⟨[], by simp, by simp⟩
  | cons a rest ih =>
    intro ret la ik st errmsg
    constructor
    · intro r st' h
      cases hc : caseStep interp host a ret st none with
      | ierr =>
        simp only [do_action_loop, hc, LoopResult.earlyReturn.injEq] at h
        obtain ⟨-, hst⟩ := h
        subst hst
        exact ⟨[], by simp, by simp⟩
      | cont r1 st1 e1 =>
        obtain ⟨Δ1, ht1, he1⟩ := caseStep_cont_trace interp host _ ret st none r1 st1 e1 hc
        simp only [do_action_loop, hc] at h
        split at h
        · simp at h
        · obtain ⟨Δ2, ht2, he2⟩ := (ih r1 (some a.a) (ik && !a.cancel_keep) st1 e1).1 r st' h
          refine ⟨Δ1 ++ Δ2, by rw [ht2, ht1, List.append_assoc], ?_⟩
          intro e he
          rcases List.mem_append.mp he with h' | h'
          · exact he1 e h'
          · exact he2 e h'
    · intro r la' ik' st' e' h
      cases hc : caseStep interp host a ret st none with
      | ierr =>
        simp [do_action_loop, hc] at h
      | cont r1 st1 e1 =>
        obtain ⟨Δ1, ht1, he1⟩ := caseStep_cont_trace interp host _ ret st none r1 st1 e1 hc
        simp only [do_action_loop, hc] at h
        split at h
        · simp only [LoopResult.fallthrough.injEq] at h
          obtain ⟨-, -, -, hst, -⟩ := h
          subst hst
          exact ⟨Δ1, ht1, he1⟩
        · obtain ⟨Δ2, ht2, he2⟩ := (ih r1 (some a.a) (ik && !a.cancel_keep) st1 e1).2 r la' ik' st' e' h
          refine ⟨Δ1 ++ Δ2, by rw [ht2, ht1, List.append_assoc], ?_⟩
          intro e he
          rcases List.mem_append.mp he with h' | h'
          · exact he1 e h'
          · exact he2 e h'

/-- With an all-OK host and only dispatchable actions, the loop falls
through with `SIEVE_OK` and the implicit-keep flag is the conjunction of
the negated `cancel_keep` flags. -/
theorem do_action_loop_ok (interp : Interp) (host : Host)
    (hOK : ∀ k, host.result k = SIEVE_OK) :
    ∀ (acts : List Action) (la : Option action_t) (ik : Bool)
      (st : DispatchState) (errmsg : Option String),
      (∀ a ∈ acts, dispatchable interp a.a = true) →
      ∃ la' st' e', do_action_loop interp host acts SIEVE_OK la ik st errmsg =
          .fallthrough SIEVE_OK la' (ik && !acts.any (·.cancel_keep)) st' e' ∧
        ∃ Δ, st'.trace = st.trace ++ Δ ∧ ∀ e ∈ Δ, e.isActionCb = true := by
  intro acts
  induction acts with
  | nil =>
    intro la ik st errmsg _
    exact ⟨la, st, errmsg, by simp [do_action_loop], [], by simp, by simp⟩
  | cons a rest ih =>
    intro la ik st errmsg hd
    obtain ⟨st1, e1, hc⟩ := caseStep_ok interp host a st none hOK
      (hd a (List.mem_cons_self a rest))
    obtain ⟨Δ1, ht1, he1⟩ :=
      caseStep_cont_trace interp host a SIEVE_OK st none SIEVE_OK st1 e1 hc
    obtain ⟨la', st', e', hloop, Δ2, ht2, he2⟩ :=
      ih (some a.a) (ik && !a.cancel_keep) st1 e1
        (fun b hb => hd b (List.mem_cons_of_mem a hb))
    refine ⟨la', st', e', ?_, Δ1 ++ Δ2, by rw [ht2, ht1, List.append_assoc], ?_⟩
    · simp only [do_action_loop, hc, beq_self_eq_true, Bool.not_true,
        Bool.false_eq_true, if_false, hloop]
      simp [List.any_cons, Bool.and_assoc]
    · intro e he
      rcases List.mem_append.mp he with h' | h'
      · exact he1 e h'
      · exact he2 e h'

/-- Whatever `do_action_list` does, the trace only gains action-callback
and error-phase events. -/
theorem do_action_list_spec (interp : Interp) (host : Host) (fuel : Nat)
    (acts : List Action) (nl : Option (List NotifyEntry)) (st : DispatchState)
    (errmsg : Option String) (r : Int) (st' : DispatchState)
    (h : do_action_list interp host fuel acts nl st errmsg = some (r, st')) :
    ∃ Δ, st'.trace = st.trace ++ Δ ∧
      ∀ e ∈ Δ, (e.isActionCb || e.isErrPhase) = true := by
  unfold do_action_list at h
  cases hl : do_action_loop interp host acts SIEVE_OK none true
      { st with actions_string := "Action(s) taken:\n" } errmsg with
  | earlyReturn r1 st1 =>
    simp only [hl, Option.some.injEq, Prod.mk.injEq] at h
    obtain ⟨-, hst⟩ := h
    subst hst
    obtain ⟨Δ, ht, he⟩ := (do_action_loop_trace interp host acts SIEVE_OK none true
      { st with actions_string := "Action(s) taken:\n" } errmsg).1 r1 st1 hl
    refine ⟨Δ, by simpa using ht, ?_⟩
    intro e hm
    simp [he e hm]
  | fallthrough r1 la1 ik1 st1 e1 =>
    simp only [hl] at h
    obtain ⟨Δ1, ht1, he1⟩ := (do_action_loop_trace interp host acts SIEVE_OK none true
      { st with actions_string := "Action(s) taken:\n" } errmsg).2 r1 la1 ik1 st1 e1 hl
    obtain ⟨Δ2, ht2, he2, -, -⟩ :=
      do_sieve_error_spec interp host fuel r1 st1 nl la1 ik1 e1 r st' h
    refine ⟨Δ1 ++ Δ2, by rw [ht2, ht1]; simp [List.append_assoc], ?_⟩
    intro e hm
    rcases List.mem_append.mp hm with h' | h'
    · simp [he1 e h']
    · simp [he2 e h']


/-! ### Claim C1 -/

/-- Claim C1: in a dispatch where every invoked callback returns Ok (an
all-OK host, every listed action dispatchable, keep registered), the
implicit-keep callback runs exactly once — after the action loop — when no
entry has `cancel_keep`, and not at all when some entry has it. -/
theorem C1_implicit_keep_policy (interp : Interp) (host : Host)
    (actions : List Action) (nl : Option (List NotifyEntry))
    (hOK : ∀ k, host.result k = SIEVE_OK)
    (hdisp : ∀ a ∈ actions, dispatchable interp a.a = true)
    (hkeep : interp.keep = true) :
    ∃ r st', do_action_list interp host 3 actions nl initialDispatchState none =
        some (r, st') ∧
      st'.trace.count .evImplicitKeep =
        (if actions.any (·.cancel_keep) then 0 else 1) ∧
      ∃ t1 t2, st'.trace = t1 ++ t2 ∧ (∀ e ∈ t1, e.isActionCb = true) ∧
        (∀ e ∈ t2, e.isActionCb = false) := by
  obtain ⟨la', st1, e1, hloop, Δ1, ht1, he1⟩ :=
    do_action_loop_ok interp host hOK actions none true
      { initialDispatchState with actions_string := "Action(s) taken:\n" } none hdisp
  have c1 : Δ1.count .evImplicitKeep = 0 :=
    List.count_eq_zero.mpr fun hm => actionCb_ne_implicitKeep (he1 _ hm) rfl
  by_cases hck : actions.any (·.cancel_keep) = true
  · have hik : (true && !actions.any (·.cancel_keep)) = false := by simp [hck]
    rw [hik] at hloop
    have hdal : do_action_list interp host 3 actions nl initialDispatchState none =
        do_sieve_error interp host 3 SIEVE_OK st1 nl la' false e1 := by
      unfold do_action_list
      simp only [hloop]
    obtain ⟨r, st', heq⟩ :=
      do_sieve_error_some_ik_false interp host 1 SIEVE_OK st1 nl la' e1
    obtain ⟨Δ2, ht2, he2, -, hc2⟩ :=
      do_sieve_error_spec interp host 3 SIEVE_OK st1 nl la' false e1 r st' heq
    refine ⟨r, st', by rw [hdal]; exact heq, ?_, Δ1, Δ2, ?_, he1,
      fun e hm => errPhase_not_actionCb (he2 e hm)⟩
    · rw [ht2, ht1]
      simp only [List.count_append, c1, hc2 rfl, hck, if_true]
      simp [initialDispatchState]
    · rw [ht2, ht1]
      simp [initialDispatchState]
  · have hck' : actions.any (·.cancel_keep) = false := by
      revert hck
      cases actions.any (·.cancel_keep) <;> simp
    have hik : (true && !actions.any (·.cancel_keep)) = true := by simp [hck']
    rw [hik] at hloop
    have hdal : do_action_list interp host 3 actions nl initialDispatchState none =
        do_sieve_error interp host 3 SIEVE_OK st1 nl la' true e1 := by
      unfold do_action_list
      simp only [hloop]
    obtain ⟨r, st', heq, hcnt⟩ :=
      do_sieve_error_count_ik interp host hOK hkeep 1 SIEVE_OK st1 nl la' e1
    obtain ⟨Δ2, ht2, he2, -, -⟩ :=
      do_sieve_error_spec interp host 3 SIEVE_OK st1 nl la' true e1 r st' heq
    refine ⟨r, st', by rw [hdal]; exact heq, ?_, Δ1, Δ2, ?_, he1,
      fun e hm => errPhase_not_actionCb (he2 e hm)⟩
    · rw [hcnt, ht1]
      simp only [List.count_append, c1, hck', Bool.false_eq_true, if_false]
      simp [initialDispatchState]
    · rw [ht2, ht1]
      simp [initialDispatchState]

/-- Witness for C1: a fileinto action without `cancel_keep` followed by an
explicit keep with `cancel_keep` — the latter cancels implicit keep. -/
theorem C1_implicit_keep_policy_witness :
    (∃ r st', do_action_list
        { reject := true, fileinto := true, snooze := true, keep := true,
          redirect := true, discard := true, vacation := true, notify := true,
          execute_err := true, duplicate := true, edited_headers := false }
        { result := fun _ => SIEVE_OK, errOut := fun _ => none }
        3 [{ a := .ACTION_FILEINTO, cancel_keep := false, mailbox := "INBOX" }]
        none initialDispatchState none = some (r, st') ∧
      st'.trace.count .evImplicitKeep =
        (if [{ a := .ACTION_FILEINTO, cancel_keep := false,
               mailbox := "INBOX" : Action }].any (·.cancel_keep) then 0 else 1) ∧
      ∃ t1 t2, st'.trace = t1 ++ t2 ∧ (∀ e ∈ t1, e.isActionCb = true) ∧
        (∀ e ∈ t2, e.isActionCb = false)) ∧
    (∃ r st', do_action_list
        { reject := true, fileinto := true, snooze := true, keep := true,
          redirect := true, discard := true, vacation := true, notify := true,
          execute_err := true, duplicate := true, edited_headers := false }
        { result := fun _ => SIEVE_OK, errOut := fun _ => none }
        3 [{ a := .ACTION_KEEP, cancel_keep := true }]
        none initialDispatchState none = some (r, st') ∧
      st'.trace.count .evImplicitKeep =
        (if [{ a := .ACTION_KEEP, cancel_keep := true : Action }].any
            (·.cancel_keep) then 0 else 1) ∧
      ∃ t1 t2, st'.trace = t1 ++ t2 ∧ (∀ e ∈ t1, e.isActionCb = true) ∧
        (∀ e ∈ t2, e.isActionCb = false)) :=
  ⟨C1_implicit_keep_policy _ _ _ _ (fun _ => rfl) (by decide) rfl,
   C1_implicit_keep_policy _ _ _ _ (fun _ => rfl) (by decide) rfl⟩

/-! ### Claim C3 -/

/-- Base frame of the run-error computation: notify block off, implicit
keep off, all-OK host; the result status stays `SIEVE_RUN_ERROR`. -/
theorem do_sieve_error_run_error_base (interp : Interp) (host : Host)
    (hOK : ∀ k, host.result k = SIEVE_OK) (fuel : Nat) (st : DispatchState)
    (nl : Option (List NotifyEntry)) (la : Option action_t) (errmsg : Option String)
    (hnb : (interp.notify && nl.isSome) = false) :
    ∃ st', do_sieve_error interp host (fuel+1) SIEVE_RUN_ERROR st nl la false errmsg =
      some (SIEVE_RUN_ERROR, st') := by
  rw [do_sieve_error]
  simp only [hnb, Bool.false_eq_true, if_false, Bool.false_and, Bool.not_false]
  exact ⟨_, by rw [execErrStep_ret6 interp host hOK]⟩

/-- With an all-OK host, the eval-error path of the dispatcher returns
exactly `SIEVE_RUN_ERROR` (notification failures of malformed entries are
absorbed by the bitwise or). -/
theorem do_sieve_error_run_error (interp : Interp) (host : Host)
    (hOK : ∀ k, host.result k = SIEVE_OK) (fuel : Nat) (st : DispatchState)
    (nl : Option (List NotifyEntry)) (la : Option action_t) (errmsg : Option String) :
    ∃ st', do_sieve_error interp host (fuel+2) SIEVE_RUN_ERROR st nl la false errmsg =
      some (SIEVE_RUN_ERROR, st') := by
  by_cases hnb : (interp.notify && nl.isSome) = true
  · rw [show fuel + 2 = (fuel + 1) + 1 from rfl, do_sieve_error]
    simp only [hnb, if_true, Bool.true_and]
    have h6 := notifyLoop_ret6 host hOK (nl.getD []) SIEVE_OK la
      (errorLineStep SIEVE_RUN_ERROR st la errmsg) errmsg
    split
    · rw [h6]
      exact do_sieve_error_run_error_base interp host hOK fuel _ none _ _ (by simp)
    · simp only [Bool.false_eq_true, if_false]
      rw [h6]
      exact ⟨_, by rw [execErrStep_ret6 interp host hOK]⟩
  · have hnb' : (interp.notify && nl.isSome) = false := by
      revert hnb
      cases interp.notify && nl.isSome <;> simp
    exact do_sieve_error_run_error_base interp host hOK (fuel+1) st nl la errmsg hnb'

/-- Claim C3, amended: a negative engine status is converted to
`SIEVE_RUN_ERROR` and the action-dispatch loop is skipped; the pending
notifications are still processed, but the implicit keep is NOT applied —
`sieve_execute_bytecode` passes `implicit_keep` as `0` on this path. -/
theorem C3_eval_error_path (interp : Interp) (host : Host) (ev : EvalOutcome)
    (heval : ev.ret < 0) (hOK : ∀ k, host.result k = SIEVE_OK) :
    ∃ st', sieve_execute_bytecode (some interp) host ev =
        some (SIEVE_RUN_ERROR, st') ∧
      (∀ e ∈ st'.trace, e.isActionCb = false) ∧
      st'.trace.count .evImplicitKeep = 0 ∧
      st'.trace.filter (·.isNotifyEv) =
        (if interp.notify then notifyTrace ev.notify else []) := by
  obtain ⟨st1, heq⟩ := do_sieve_error_run_error interp host hOK 1 initialDispatchState
    (if interp.notify then some ev.notify else none) none ev.errmsg
  obtain ⟨Δ, ht, he, hf, hc⟩ := do_sieve_error_spec interp host 3 SIEVE_RUN_ERROR
    initialDispatchState (if interp.notify then some ev.notify else none) none false
    ev.errmsg SIEVE_RUN_ERROR st1 heq
  have htr : st1.trace = Δ := by simpa [initialDispatchState] using ht
  have heq3 : do_sieve_error interp host errorHandlerFuel SIEVE_RUN_ERROR
      initialDispatchState (if interp.notify then some ev.notify else none)
      none false ev.errmsg = some (SIEVE_RUN_ERROR, st1) := heq
  refine ⟨st1, ?_, ?_, ?_, ?_⟩
  · simp only [sieve_execute_bytecode]
    rw [if_pos heval, heq3]
    simp [(by decide : (SIEVE_RUN_ERROR == SIEVE_OK) = false)]
  · intro e hm
    rw [htr] at hm
    exact errPhase_not_actionCb (he e hm)
  · rw [htr]
    exact hc rfl
  · rw [htr, hf]
    by_cases hni : interp.notify = true
    · simp [hni]
    · have hni' : interp.notify = false := by
        revert hni
        cases interp.notify <;> simp
      simp [hni']

/-- Witness for C3 (amended) at a concrete failing evaluation. -/
theorem C3_eval_error_path_witness :
    ∃ st', sieve_execute_bytecode
        (some { reject := true, fileinto := true, snooze := true, keep := true,
                redirect := true, discard := true, vacation := true, notify := true,
                execute_err := true, duplicate := false, edited_headers := false })
        { result := fun _ => SIEVE_OK, errOut := fun _ => none }
        { ret := -1,
          actions := [{ a := .ACTION_KEEP, cancel_keep := true }],
          notify := [{ isactive := true, method := some "mailto", options := some [],
                       priority := some "low", message := some "m" }],
          duptrack := [], errmsg := none } =
        some (SIEVE_RUN_ERROR, st') ∧
      (∀ e ∈ st'.trace, e.isActionCb = false) ∧
      st'.trace.count .evImplicitKeep = 0 ∧
      st'.trace.filter (·.isNotifyEv) =
        (if ({ reject := true, fileinto := true, snooze := true, keep := true,
               redirect := true, discard := true, vacation := true, notify := true,
               execute_err := true, duplicate := false,
               edited_headers := false : Interp }).notify then
          notifyTrace [{ isactive := true, method := some "mailto",
                         options := some [], priority := some "low",
                         message := some "m" }]
        else []) :=
  C3_eval_error_path _ _ _ (by decide) (fun _ => rfl)

/-- Counterexample for claim C3 as stated: a concrete execution whose
engine status is negative; the notification is processed and the host's
`execute_err` is called, but the implicit-keep callback is never invoked —
the trace contains no `evImplicitKeep` event — contradicting "still
processes the pending notifications and the implicit keep". -/
theorem C3_counterexample :
    sieve_execute_bytecode
      (some { reject := true, fileinto := true, snooze := true, keep := true,
              redirect := true, discard := true, vacation := true, notify := true,
              execute_err := true, duplicate := false, edited_headers := false })
      { result := fun _ => SIEVE_OK, errOut := fun _ => none }
      { ret := -1,
        actions := [{ a := .ACTION_KEEP, cancel_keep := true }],
        notify := [{ isactive := true, method := some "mailto", options := some [],
                     priority := some "low", message := some "m" }],
        duptrack := [], errmsg := none } =
      some (SIEVE_RUN_ERROR,
        { trace := [.evNotify "mailto", .evExecuteErr "Notify: Run error"]
          actions_string := "script execution failed: Run error\n"
          lastitem := none }) ∧
    List.count Event.evImplicitKeep
      [Event.evNotify "mailto", Event.evExecuteErr "Notify: Run error"] = 0 := by
  constructor
  · decide
  · decide


/-! ### Claim C4 -/

/-- Claim C4: when the switch iteration for an action continues with a
non-Ok status, no later entry's callback is invoked (dispatching the whole
list equals dispatching the failing entry alone), the loop falls through
with implicit keep disabled, and the error handler still processes the
still-active notification entries. -/
theorem C4_action_failure (interp : Interp) (host : Host) (a : Action)
    (rest : List Action) (nl : Option (List NotifyEntry)) (st : DispatchState)
    (errmsg : Option String) (ret1 : Int) (st1 : DispatchState) (e1 : Option String)
    (hdisp : dispatchable interp a.a = true)
    (hc : caseStep interp host a SIEVE_OK
        { st with actions_string := "Action(s) taken:\n" } none = .cont ret1 st1 e1)
    (hne : ret1 ≠ SIEVE_OK) :
    do_action_list interp host 3 (a :: rest) nl st errmsg =
      do_action_list interp host 3 [a] nl st errmsg ∧
    (∀ la0 ik0, do_action_loop interp host (a :: rest) SIEVE_OK la0 ik0
        { st with actions_string := "Action(s) taken:\n" } errmsg =
      .fallthrough ret1 (some a.a) false st1 e1) ∧
    ∃ r st', do_action_list interp host 3 (a :: rest) nl st errmsg = some (r, st') ∧
      st'.trace.count .evImplicitKeep = st.trace.count .evImplicitKeep ∧
      (interp.notify = true → ∀ l, nl = some l →
        st'.trace.filter (·.isNotifyEv) =
          st.trace.filter (·.isNotifyEv) ++ notifyTrace l) := by
  have hbeq : (ret1 == SIEVE_OK) = false := by
    simp only [beq_eq_false_iff_ne, ne_eq]
    exact hne
  have hstep : ∀ (rest' : List Action) (la0 : Option action_t) (ik0 : Bool)
      (em : Option String),
      do_action_loop interp host (a :: rest') SIEVE_OK la0 ik0
        { st with actions_string := "Action(s) taken:\n" } em =
      .fallthrough ret1 (some a.a) false st1 e1 := by
    intro rest' la0 ik0 em
    simp only [do_action_loop, hc, hbeq, Bool.not_false, if_true]
  have hdal : ∀ rest' : List Action,
      do_action_list interp host 3 (a :: rest') nl st errmsg =
      do_sieve_error interp host 3 ret1 st1 nl (some a.a) false e1 := by
    intro rest'
    unfold do_action_list
    simp only [hstep rest' none true]
  obtain ⟨r, st', heq⟩ :=
    do_sieve_error_some_ik_false interp host 1 ret1 st1 nl (some a.a) e1
  obtain ⟨Δ1, ht1, he1⟩ :=
    caseStep_cont_trace interp host a SIEVE_OK _ none ret1 st1 e1 hc
  obtain ⟨Δ2, ht2, he2, hf2, hc2⟩ :=
    do_sieve_error_spec interp host 3 ret1 st1 nl (some a.a) false e1 r st' heq
  refine ⟨by rw [hdal rest, hdal []], fun la0 ik0 => hstep rest la0 ik0 errmsg, r, st',
    by rw [hdal rest]; exact heq, ?_, ?_⟩
  · rw [ht2, ht1]
    have c1 : Δ1.count .evImplicitKeep = 0 :=
      List.count_eq_zero.mpr fun hm => actionCb_ne_implicitKeep (he1 _ hm) rfl
    simp [List.count_append, c1, hc2 rfl]
  · intro hni l hl
    subst hl
    rw [ht2, ht1]
    have f1 : Δ1.filter (·.isNotifyEv) = [] :=
      List.filter_eq_nil_iff.mpr fun e hm => by simp [actionCb_not_notify (he1 e hm)]
    rw [List.filter_append, List.filter_append, f1, hf2]
    simp [hni]

/-- Witness for C4: a fileinto whose callback fails, followed by a keep
entry that is then never dispatched; the active notification still fires. -/
theorem C4_action_failure_witness :
    (do_action_list
        { reject := true, fileinto := true, snooze := true, keep := true,
          redirect := true, discard := true, vacation := true, notify := true,
          execute_err := true, duplicate := true, edited_headers := false }
        { result := fun k => if k == 0 then SIEVE_FAIL else SIEVE_OK
          errOut := fun _ => none }
        3 [{ a := .ACTION_FILEINTO, cancel_keep := false, mailbox := "IN" },
           { a := .ACTION_KEEP, cancel_keep := true }]
        (some [{ isactive := true, method := some "mailto", options := some [],
                 priority := some "low", message := some "m" }])
        initialDispatchState none =
      do_action_list
        { reject := true, fileinto := true, snooze := true, keep := true,
          redirect := true, discard := true, vacation := true, notify := true,
          execute_err := true, duplicate := true, edited_headers := false }
        { result := fun k => if k == 0 then SIEVE_FAIL else SIEVE_OK
          errOut := fun _ => none }
        3 [{ a := .ACTION_FILEINTO, cancel_keep := false, mailbox := "IN" }]
        (some [{ isactive := true, method := some "mailto", options := some [],
                 priority := some "low", message := some "m" }])
        initialDispatchState none) ∧
    ∃ r st', do_action_list
        { reject := true, fileinto := true, snooze := true, keep := true,
          redirect := true, discard := true, vacation := true, notify := true,
          execute_err := true, duplicate := true, edited_headers := false }
        { result := fun k => if k == 0 then SIEVE_FAIL else SIEVE_OK
          errOut := fun _ => none }
        3 [{ a := .ACTION_FILEINTO, cancel_keep := false, mailbox := "IN" },
           { a := .ACTION_KEEP, cancel_keep := true }]
        (some [{ isactive := true, method := some "mailto", options := some [],
                 priority := some "low", message := some "m" }])
        initialDispatchState none = some (r, st') ∧
      st'.trace.count .evImplicitKeep = initialDispatchState.trace.count .evImplicitKeep ∧
      ((({ reject := true, fileinto := true, snooze := true, keep := true,
           redirect := true, discard := true, vacation := true, notify := true,
           execute_err := true, duplicate := true,
           edited_headers := false } : Interp)).notify = true →
        ∀ l, (some [{ isactive := true, method := some "mailto", options := some [],
                      priority := some "low", message := some "m" }] :
            Option (List NotifyEntry)) = some l →
        st'.trace.filter (·.isNotifyEv) =
          initialDispatchState.trace.filter (·.isNotifyEv) ++ notifyTrace l) := by
  have h := C4_action_failure
    { reject := true, fileinto := true, snooze := true, keep := true,
      redirect := true, discard := true, vacation := true, notify := true,
      execute_err := true, duplicate := true, edited_headers := false }
    { result := fun k => if k == 0 then SIEVE_FAIL else SIEVE_OK
      errOut := fun _ => none }
    { a := .ACTION_FILEINTO, cancel_keep := false, mailbox := "IN" }
    [{ a := .ACTION_KEEP, cancel_keep := true }]
    (some [{ isactive := true, method := some "mailto", options := some [],
             priority := some "low", message := some "m" }])
    initialDispatchState none SIEVE_FAIL
    { trace := [.evFileinto "IN"], actions_string := "Action(s) taken:\n"
      lastitem := some "IN" } none
    (by decide) (by decide) (by decide)
  exact ⟨h.1, h.2.2⟩

/-! ### Claim C6 -/

/-- Claim C6: dispatching a Vacation action consults the host's
`autorespond` first; only on Ok is `send_response` invoked, with the
vacation-sent trace line appended when it succeeds; a Done result records
the suppressed trace line and converts the action's result to Ok; any
other autorespond status propagates unchanged as the action's result, and
nothing is sent. -/
theorem C6_vacation_two_phase (interp : Interp) (host : Host) (a : Action)
    (ret0 : Int) (st : DispatchState) (errmsg : Option String)
    (hvac : interp.vacation = true) (ha : a.a = .ACTION_VACATION) :
    (host.result st.trace.length = SIEVE_OK →
      ∃ e2, caseStep interp host a ret0 st errmsg =
        .cont (host.result (st.trace.length + 1))
          (if host.result (st.trace.length + 1) == SIEVE_OK then
            { trace := st.trace ++ [.evAutorespond, .evSendResponse]
              actions_string := appendTrunc st.actions_string "Sent vacation reply\n"
              lastitem := none }
          else
            { trace := st.trace ++ [.evAutorespond, .evSendResponse]
              actions_string := st.actions_string
              lastitem := none }) e2) ∧
    (host.result st.trace.length = SIEVE_DONE →
      ∃ e2, caseStep interp host a ret0 st errmsg =
        .cont SIEVE_OK
          { trace := st.trace ++ [.evAutorespond]
            actions_string := appendTrunc st.actions_string "Vacation reply suppressed\n"
            lastitem := none } e2) ∧
    (host.result st.trace.length ≠ SIEVE_OK →
      host.result st.trace.length ≠ SIEVE_DONE →
      ∃ e2, caseStep interp host a ret0 st errmsg =
        .cont (host.result st.trace.length)
          { trace := st.trace ++ [.evAutorespond]
            actions_string := st.actions_string
            lastitem := none } e2) := by
  rcases a with ⟨k, ck, msg, mbx, adr⟩
  simp only at ha
  subst ha
  simp only [caseStep, hvac, Bool.not_true, Bool.false_eq_true, if_false, invokeErr]
  refine ⟨?_, ?_, ?_⟩
  · intro h1
    rw [h1]
    refine ⟨(host.errOut (st.trace.length + 1)).elim
      ((host.errOut st.trace.length).elim errmsg some) some, ?_⟩
    simp only [beq_self_eq_true, if_true]
    split <;> simp_all [appendStr, List.length_append]
  · intro h1
    rw [h1]
    refine ⟨(host.errOut st.trace.length).elim errmsg some, ?_⟩
    simp [appendStr]
  · intro h1 h2
    refine ⟨(host.errOut st.trace.length).elim errmsg some, ?_⟩
    have hb1 : (host.result st.trace.length == SIEVE_OK) = false := by
      simp only [beq_eq_false_iff_ne, ne_eq]
      exact h1
    have hb2 : (host.result st.trace.length == SIEVE_DONE) = false := by
      simp only [beq_eq_false_iff_ne, ne_eq]
      exact h2
    simp [hb1, hb2]

/-- Witness for C6 under three concrete hosts: autorespond returning Ok
(response sent), Done (suppressed, converted to Ok), and Fail
(propagated). -/
theorem C6_vacation_two_phase_witness :
    (∃ e2, caseStep
        { reject := true, fileinto := true, snooze := true, keep := true,
          redirect := true, discard := true, vacation := true, notify := true,
          execute_err := true, duplicate := true, edited_headers := false }
        { result := fun _ => SIEVE_OK, errOut := fun _ => none }
        { a := .ACTION_VACATION, cancel_keep := true } SIEVE_OK
        initialDispatchState none =
      .cont SIEVE_OK
        { trace := [.evAutorespond, .evSendResponse]
          actions_string := appendTrunc "" "Sent vacation reply\n"
          lastitem := none } e2) ∧
    (∃ e2, caseStep
        { reject := true, fileinto := true, snooze := true, keep := true,
          redirect := true, discard := true, vacation := true, notify := true,
          execute_err := true, duplicate := true, edited_headers := false }
        { result := fun _ => SIEVE_DONE, errOut := fun _ => none }
        { a := .ACTION_VACATION, cancel_keep := true } SIEVE_OK
        initialDispatchState none =
      .cont SIEVE_OK
        { trace := [.evAutorespond]
          actions_string := appendTrunc "" "Vacation reply suppressed\n"
          lastitem := none } e2) ∧
    (∃ e2, caseStep
        { reject := true, fileinto := true, snooze := true, keep := true,
          redirect := true, discard := true, vacation := true, notify := true,
          execute_err := true, duplicate := true, edited_headers := false }
        { result := fun _ => SIEVE_FAIL, errOut := fun _ => none }
        { a := .ACTION_VACATION, cancel_keep := true } SIEVE_OK
        initialDispatchState none =
      .cont SIEVE_FAIL
        { trace := [.evAutorespond]
          actions_string := ""
          lastitem := none } e2) := by
  refine ⟨?_, ?_, ?_⟩
  · obtain ⟨e2, he⟩ := (C6_vacation_two_phase
      { reject := true, fileinto := true, snooze := true, keep := true,
        redirect := true, discard := true, vacation := true, notify := true,
        execute_err := true, duplicate := true, edited_headers := false }
      { result := fun _ => SIEVE_OK, errOut := fun _ => none }
      { a := .ACTION_VACATION, cancel_keep := true } SIEVE_OK
      initialDispatchState none rfl rfl).1 rfl
    exact ⟨e2, by simpa [initialDispatchState] using he⟩
  · obtain ⟨e2, he⟩ := (C6_vacation_two_phase
      { reject := true, fileinto := true, snooze := true, keep := true,
        redirect := true, discard := true, vacation := true, notify := true,
        execute_err := true, duplicate := true, edited_headers := false }
      { result := fun _ => SIEVE_DONE, errOut := fun _ => none }
      { a := .ACTION_VACATION, cancel_keep := true } SIEVE_OK
      initialDispatchState none rfl rfl).2.1 rfl
    exact ⟨e2, by simpa [initialDispatchState] using he⟩
  · obtain ⟨e2, he⟩ := (C6_vacation_two_phase
      { reject := true, fileinto := true, snooze := true, keep := true,
        redirect := true, discard := true, vacation := true, notify := true,
        execute_err := true, duplicate := true, edited_headers := false }
      { result := fun _ => SIEVE_FAIL, errOut := fun _ => none }
      { a := .ACTION_VACATION, cancel_keep := true } SIEVE_OK
      initialDispatchState none rfl rfl).2.2 (by decide) (by decide)
    exact ⟨e2, by simpa [initialDispatchState] using he⟩

/-! ### Claim C8 -/

/-- Claim C8: an action whose required capability callback is unregistered
makes the dispatcher fail with `SIEVE_INTERNAL_ERROR` at dispatch time —
the loop returns it directly, and `do_action_list` propagates it (with the
state untouched apart from the initial `strcpy` of the trace buffer). -/
theorem C8_missing_capability (interp : Interp) (host : Host) (a : Action)
    (rest : List Action) (nl : Option (List NotifyEntry)) (ret : Int)
    (la : Option action_t) (ik : Bool) (st : DispatchState) (errmsg : Option String)
    (h : requiredCapUnset interp a.a = true) :
    do_action_loop interp host (a :: rest) ret la ik st errmsg =
      .earlyReturn SIEVE_INTERNAL_ERROR st ∧
    do_action_list interp host 3 (a :: rest) nl st errmsg =
      some (SIEVE_INTERNAL_ERROR, { st with actions_string := "Action(s) taken:\n" }) := by
  have hcs : ∀ (ret0 : Int) (st0 : DispatchState) (e0 : Option String),
      caseStep interp host a ret0 st0 e0 = .ierr := by
    intro ret0 st0 e0
    rcases a with ⟨k, ck, msg, mbx, adr⟩
    cases k
    case ACTION_REJECT | ACTION_EREJECT | ACTION_FILEINTO | ACTION_SNOOZE
        | ACTION_KEEP | ACTION_REDIRECT =>
      simp only [requiredCapUnset] at h
      simp [caseStep, simpleCase, h]
    case ACTION_VACATION =>
      simp only [requiredCapUnset] at h
      simp [caseStep, h]
    all_goals simp [requiredCapUnset] at h
  constructor
  · simp only [do_action_loop, hcs]
  · unfold do_action_list
    simp only [do_action_loop, hcs]

/-- Witness for C8: dispatching a fileinto action with no fileinto
callback registered. -/
theorem C8_missing_capability_witness :
    do_action_loop
      { reject := true, fileinto := false, snooze := true, keep := true,
        redirect := true, discard := true, vacation := true, notify := true,
        execute_err := true, duplicate := true, edited_headers := false }
      { result := fun _ => SIEVE_OK, errOut := fun _ => none }
      [{ a := .ACTION_FILEINTO, cancel_keep := true, mailbox := "IN" }]
      SIEVE_OK none true initialDispatchState none =
      .earlyReturn SIEVE_INTERNAL_ERROR initialDispatchState ∧
    do_action_list
      { reject := true, fileinto := false, snooze := true, keep := true,
        redirect := true, discard := true, vacation := true, notify := true,
        execute_err := true, duplicate := true, edited_headers := false }
      { result := fun _ => SIEVE_OK, errOut := fun _ => none }
      3 [{ a := .ACTION_FILEINTO, cancel_keep := true, mailbox := "IN" }]
      none initialDispatchState none =
      some (SIEVE_INTERNAL_ERROR,
        { initialDispatchState with actions_string := "Action(s) taken:\n" }) :=
  C8_missing_capability _ _ _ [] none SIEVE_OK none true initialDispatchState none
    (by decide)

/-! ### Claim C9 -/

theorem trackLoop_spec (host : Host) :
    ∀ (ds : List DupEntry) (st : DispatchState),
      ∃ Δ, (trackLoop host st ds).trace = st.trace ++ Δ ∧
        ∀ e ∈ Δ, e.isTrackEv = true := by
  intro ds
  induction ds with
  | nil => intro st; exact ⟨[], by simp [trackLoop], by simp⟩
  | cons d rest ih =>
    intro st
    cases hid : d.id with
    | none =>
      obtain ⟨Δ, ht, he⟩ := ih st
      exact ⟨Δ, by simp [trackLoop, hid, ht], he⟩
    | some i =>
      obtain ⟨Δ, ht, he⟩ := ih { st with trace := st.trace ++ [.evTrack i d.seconds] }
      refine ⟨.evTrack i d.seconds :: Δ, ?_, ?_⟩
      · simp only [trackLoop, hid, invoke]
        rw [ht]
        simp
      · intro e hm
        rcases List.mem_cons.mp hm with rfl | hm'
        · rfl
        · exact he e hm'

/-- Claim C9: duplicate-tracking callbacks are invoked last of all — the
trace splits into a track-free prefix (actions, notifications, implicit
keep, error reporting) followed by only-track events — and no track event
is recorded unless the overall result is `SIEVE_OK`. -/
theorem C9_duptrack_last_only_ok (interp : Interp) (host : Host) (ev : EvalOutcome)
    (r : Int) (st' : DispatchState)
    (h : sieve_execute_bytecode (some interp) host ev = some (r, st')) :
    ∃ t1 t2, st'.trace = t1 ++ t2 ∧ (∀ e ∈ t1, e.isTrackEv = false) ∧
      (∀ e ∈ t2, e.isTrackEv = true) ∧ (r ≠ SIEVE_OK → t2 = []) := by
  simp only [sieve_execute_bytecode] at h
  split at h
  · cases h
  · rename_i ret1 st1 heq
    simp only [Option.some.injEq, Prod.mk.injEq] at h
    obtain ⟨hr, hst⟩ := h
    subst hr
    have ht1 : ∀ e ∈ st1.trace, e.isTrackEv = false := by
      split at heq
      · obtain ⟨Δ, ht, he, -, -⟩ := do_sieve_error_spec interp host errorHandlerFuel
          SIEVE_RUN_ERROR initialDispatchState
          (if interp.notify then some ev.notify else none) none false ev.errmsg
          ret1 st1 heq
        intro e hm
        rw [ht] at hm
        simp only [initialDispatchState, List.nil_append] at hm
        exact errPhase_not_track (he e hm)
      · obtain ⟨Δ, ht, he⟩ := do_action_list_spec interp host errorHandlerFuel
          ev.actions (if interp.notify then some ev.notify else none)
          initialDispatchState ev.errmsg ret1 st1 heq
        intro e hm
        rw [ht] at hm
        simp only [initialDispatchState, List.nil_append] at hm
        have horc := he e hm
        rw [Bool.or_eq_true] at horc
        rcases horc with h' | h'
        · exact actionCb_not_track h'
        · exact errPhase_not_track h'
    split at hst
    · rename_i hcond
      obtain ⟨Δt, htt, het⟩ := trackLoop_spec host ev.duptrack st1
      refine ⟨st1.trace, Δt, by rw [← hst, htt], ht1, het, ?_⟩
      intro hrne
      rw [Bool.and_eq_true] at hcond
      exact absurd (by simpa using hcond.2) hrne
    · exact ⟨st1.trace, [], by rw [← hst]; simp, ht1, by simp, fun _ => rfl⟩

/-- Witness for C9: an Ok execution with one duplicate-tracking record —
the track event comes after the action events. -/
theorem C9_duptrack_last_only_ok_witness :
    ∃ t1 t2,
      ({ trace := [.evKeep, .evTrack "x" 5]
         actions_string := appendTrunc "Action(s) taken:\n" "Kept\n"
         lastitem := none } : DispatchState).trace = t1 ++ t2 ∧
      (∀ e ∈ t1, e.isTrackEv = false) ∧ (∀ e ∈ t2, e.isTrackEv = true) ∧
      ((SIEVE_OK : Int) ≠ SIEVE_OK → t2 = []) :=
  C9_duptrack_last_only_ok
    { reject := true, fileinto := true, snooze := true, keep := true,
      redirect := true, discard := true, vacation := true, notify := false,
      execute_err := true, duplicate := true, edited_headers := false }
    { result := fun _ => SIEVE_OK, errOut := fun _ => none }
    { ret := 0, actions := [{ a := .ACTION_KEEP, cancel_keep := true }],
      notify := [], duptrack := [{ id := some "x", seconds := 5 }], errmsg := none }
    SIEVE_OK
    { trace := [.evKeep, .evTrack "x" 5]
      actions_string := appendTrunc "Action(s) taken:\n" "Kept\n"
      lastitem := none }
    (by decide)

end SieveSpec
